import Mathlib

/-!
Verification of the backtesting engine of the `trading-strategy-backtester`
skill: a shallow embedding of

  * `scripts/strategies.py`  (the eight strategy classes and the registry),
  * `scripts/backtest.py`    (`run_backtest`, the simulation loop), and
  * `scripts/metrics.py`     (`Trade`, Sharpe and Sortino ratios),

together with theorems settling the frozen claims about that code.

Modelling conventions, used throughout:

  * Python floats are idealised as exact rationals `ℚ`.  Where the source's
    IEEE-754 non-finite values (`nan`, `±inf`) are observable — the pandas
    rolling statistics which are NaN until the window fills, and the RSI
    quotient `gain/loss` which can be `inf` or `nan` — values are embedded in
    the type `PF` (`nan`, `pinf`, `ninf` or a finite rational) whose
    arithmetic and comparisons follow IEEE-754 (every comparison with NaN is
    false).
  * A pandas expression `stat(S).iloc[-1]` (the last element of a rolling /
    scan statistic of a series `S`) is translated as `statLast S`, and
    `stat(S).iloc[-2]` as `statLast S.dropLast`: a rolling-window or prefix-
    scan statistic at position `len - 2` depends only on the first `len - 1`
    elements, so it equals the statistic of the list with its last element
    removed.
  * The sample standard deviation `std = sqrt(var)` of a rational window is
    irrational in general, so comparisons of the form `c < a + b*sqrt v`
    (Bollinger bands, z-scores) are embedded as exact rational decision
    procedures (`ltAddSqrt`, `leAddSqrt`) rather than through `Real.sqrt`,
    keeping every definition executable.
  * Timestamps (`data.index[i]`) are modelled by the bar index `i : ℕ`.
-/

set_option linter.unusedVariables false

namespace Backtester

/-- Trade direction, the `direction` string field of `Signal` / `Trade`
("long" or "short" in the source). -/
inductive Direction where
  | long
  | short
deriving DecidableEq, Repr, Inhabited

/-- Trading signal, `strategies.py` lines 14-20.  The advisory `strength`
field (a float in [0,1], unused by the execution loop) is omitted: no claim
observes it and its value is irrational for the z-score strategy. -/
structure Signal where
  entry : Bool := false
  exit : Bool := false
  direction : Direction := .long
deriving DecidableEq, Repr, Inhabited

/-- One OHLCV price bar.  Only the fields the strategies and the engine read
(`close`, `high`, `low`) are kept. -/
structure Bar where
  close : ℚ
  high : ℚ
  low : ℚ
deriving DecidableEq, Repr, Inhabited

/-- Pandas float values as observed by the strategy computations: either a
finite rational or one of the IEEE-754 specials `nan`, `+inf`, `-inf`. -/
inductive PF where
  | nan
  | pinf
  | ninf
  | fin (q : ℚ)
deriving DecidableEq, Repr, Inhabited

namespace PF

/-- IEEE-754 `<` as a boolean: any comparison involving NaN is false. -/
def lt : PF → PF → Bool
  | fin a, fin b => decide (a < b)
  | fin _, pinf => true
  | ninf, fin _ => true
  | ninf, pinf => true
  | _, _ => false

/-- IEEE-754 `<=` as a boolean: any comparison involving NaN is false. -/
def le : PF → PF → Bool
  | fin a, fin b => decide (a ≤ b)
  | fin _, pinf => true
  | ninf, fin _ => true
  | ninf, pinf => true
  | pinf, pinf => true
  | ninf, ninf => true
  | _, _ => false

/-- IEEE-754 `>`: `a > b` iff `b < a`. -/
def gt (a b : PF) : Bool := lt b a

/-- IEEE-754 `>=`: `a >= b` iff `b <= a`. -/
def ge (a b : PF) : Bool := le b a

/-- IEEE-754 addition on the embedded values. -/
def add : PF → PF → PF
  | nan, _ => nan
  | _, nan => nan
  | pinf, ninf => nan
  | ninf, pinf => nan
  | pinf, _ => pinf
  | _, pinf => pinf
  | ninf, _ => ninf
  | _, ninf => ninf
  | fin a, fin b => fin (a + b)

/-- IEEE-754 subtraction on the embedded values. -/
def sub : PF → PF → PF
  | nan, _ => nan
  | _, nan => nan
  | pinf, pinf => nan
  | ninf, ninf => nan
  | pinf, _ => pinf
  | ninf, _ => ninf
  | fin _, pinf => ninf
  | fin _, ninf => pinf
  | fin a, fin b => fin (a - b)

/-- IEEE-754 division on the embedded values; a finite nonzero numerator over
zero is a signed infinity and `0/0` is NaN, as in numpy/pandas. -/
def div : PF → PF → PF
  | nan, _ => nan
  | _, nan => nan
  | pinf, pinf => nan
  | pinf, ninf => nan
  | ninf, pinf => nan
  | ninf, ninf => nan
  | pinf, fin b => if 0 ≤ b then pinf else ninf
  | ninf, fin b => if 0 ≤ b then ninf else pinf
  | fin _, pinf => fin 0
  | fin _, ninf => fin 0
  | fin a, fin b =>
    if b = 0 then (if a = 0 then nan else if 0 < a then pinf else ninf)
    else fin (a / b)

theorem lt_imp_not_le {a b : PF} (h : lt a b = true) : le b a = false := by
  cases a <;> cases b <;> simp_all [lt, le]

end PF

/-- The trailing window of `w` elements of a list (all of it if shorter). -/
def lastWindow (w : ℕ) (xs : List α) : List α := xs.drop (xs.length - w)

/-- `series.rolling(window=w).mean().iloc[-1]`: the mean of the last `w`
elements, NaN while fewer than `w` observations are available (pandas keeps
`min_periods = window`).  `w = 0` is rejected by pandas; it is mapped to NaN
(no signal), a corner no run reaches. -/
def rollingMeanLast (w : ℕ) (xs : List ℚ) : PF :=
  if xs.length < w ∨ w = 0 then .nan else .fin ((lastWindow w xs).sum / w)

/-- Mean of the trailing `w`-window (callers guard `w ≥ 1` and a full
window). -/
def windowMean (w : ℕ) (xs : List ℚ) : ℚ := (lastWindow w xs).sum / w

/-- Sample variance (`ddof = 1`, as pandas `std` squares to) of the trailing
`w`-window; callers guard `w ≥ 2` and a full window. -/
def windowVar (w : ℕ) (xs : List ℚ) : ℚ :=
  let win := lastWindow w xs
  let m := win.sum / w
  (win.map (fun x => (x - m) ^ 2)).sum / ((w : ℚ) - 1)

/-- `series.ewm(span=s, adjust=False).mean().iloc[-1]` on a nonempty list:
the recursive exponential mean `e := (1-α)·e + α·x` with `α = 2/(s+1)`,
seeded with the first element.  Returns 0 on `[]` (callers guard). -/
def ewmMean (span : ℕ) (xs : List ℚ) : ℚ :=
  let α : ℚ := 2 / ((span : ℚ) + 1)
  match xs with
  | [] => 0
  | x :: rest => rest.foldl (fun e y => (1 - α) * e + α * y) x

/-- `ewm(...).mean().iloc[-1]` with the empty series mapped to NaN. -/
def ewmMeanLast (span : ℕ) (xs : List ℚ) : PF :=
  if xs.isEmpty then .nan else .fin (ewmMean span xs)

/-- Pandas `close.diff()` with the leading NaN replaced by the `where`
filters downstream: consecutive differences. -/
def deltas (closes : List ℚ) : List ℚ :=
  (closes.zip closes.tail).map (fun p => p.2 - p.1)

/-- `delta.where(delta > 0, 0)` over the diff series (`strategies.py`
line 117); the leading NaN of `diff` compares false and becomes 0. -/
def gains (closes : List ℚ) : List ℚ :=
  match closes with
  | [] => []
  | _ :: _ => 0 :: (deltas closes).map (fun d => if 0 < d then d else 0)

/-- `(-delta.where(delta < 0, 0))` over the diff series (`strategies.py`
line 118). -/
def losses (closes : List ℚ) : List ℚ :=
  match closes with
  | [] => []
  | _ :: _ => 0 :: (deltas closes).map (fun d => if d < 0 then -d else 0)

/-- `RSIreversal._calculate_rsi(close, period).iloc[-1]` (`strategies.py`
lines 115-120): `100 - 100/(1 + gain/loss)` over the trailing rolling means
of gains and losses; a zero loss-mean with positive gain-mean makes
`rs = +inf` (so RSI 100), a zero/zero quotient makes the RSI NaN. -/
def rsiLast (period : ℕ) (closes : List ℚ) : PF :=
  let gain := rollingMeanLast period (gains closes)
  let loss := rollingMeanLast period (losses closes)
  let rs := gain.div loss
  (PF.fin 100).sub ((PF.fin 100).div ((PF.fin 1).add rs))

/-- `macd_line.iloc[-1]` = fast EWM minus slow EWM of the close series. -/
def macdLast (fast slow : ℕ) (closes : List ℚ) : PF :=
  if closes.isEmpty then .nan else .fin (ewmMean fast closes - ewmMean slow closes)

/-- The full MACD line series (value at every bar), input to the signal
line's EWM. -/
def macdSeries (fast slow : ℕ) (closes : List ℚ) : List ℚ :=
  (List.range closes.length).map (fun i =>
    ewmMean fast (closes.take (i + 1)) - ewmMean slow (closes.take (i + 1)))

/-- Decides `c < a + b * sqrt v` exactly over ℚ, for `v ≥ 0` (the sample
variance).  Used to embed float comparisons against `mean ± k·std` bands,
whose `std = sqrt(var)` is irrational in general. -/
def ltAddSqrt (c a b v : ℚ) : Bool :=
  let d := c - a
  if 0 ≤ b then decide (d < 0) || decide (d ^ 2 < b ^ 2 * v)
  else decide (d < 0) && decide (b ^ 2 * v < d ^ 2)

/-- Decides `c ≤ a + b * sqrt v` exactly over ℚ, for `v ≥ 0`. -/
def leAddSqrt (c a b v : ℚ) : Bool :=
  let d := c - a
  if 0 ≤ b then decide (d ≤ 0) || decide (d ^ 2 ≤ b ^ 2 * v)
  else decide (d ≤ 0) && decide (b ^ 2 * v ≤ d ^ 2)

/-- `c >= lower_band` where `lower_band = sma - std·k` over the trailing
`p`-window of `xs`; false when the band is NaN (window unfilled, or `p < 2`
where the sample std is undefined). -/
def bollGeLower (p : ℕ) (k c : ℚ) (xs : List ℚ) : Bool :=
  if xs.length < p ∨ p < 2 then false
  else !(ltAddSqrt c (windowMean p xs) (-k) (windowVar p xs))

/-- `c < lower_band` with the same NaN guard. -/
def bollLtLower (p : ℕ) (k c : ℚ) (xs : List ℚ) : Bool :=
  if xs.length < p ∨ p < 2 then false
  else ltAddSqrt c (windowMean p xs) (-k) (windowVar p xs)

/-- `c <= upper_band` where `upper_band = sma + std·k`, same NaN guard. -/
def bollLeUpper (p : ℕ) (k c : ℚ) (xs : List ℚ) : Bool :=
  if xs.length < p ∨ p < 2 then false
  else leAddSqrt c (windowMean p xs) k (windowVar p xs)

/-- `c > upper_band`, same NaN guard. -/
def bollGtUpper (p : ℕ) (k c : ℚ) (xs : List ℚ) : Bool :=
  if xs.length < p ∨ p < 2 then false
  else !(leAddSqrt c (windowMean p xs) k (windowVar p xs))

/-- `z < -thr` for the z-score `z = (last - sma) / std` over the trailing
`p`-window of `xs` (`strategies.py` line 272).  NaN z-scores (unfilled
window, `p < 2`, or `0/0` when the window is constant) compare false; a zero
std with nonzero numerator is a signed infinity, compared accordingly. -/
def zscoreLtNeg (p : ℕ) (thr : ℚ) (xs : List ℚ) : Bool :=
  if xs.length < p ∨ p < 2 then false
  else
    let d := xs.getLastD 0 - windowMean p xs
    let v := windowVar p xs
    if v = 0 then decide (d < 0) else ltAddSqrt d 0 (-thr) v

/-- `z >= -thr` under the same z-score semantics. -/
def zscoreGeNeg (p : ℕ) (thr : ℚ) (xs : List ℚ) : Bool :=
  if xs.length < p ∨ p < 2 then false
  else
    let d := xs.getLastD 0 - windowMean p xs
    let v := windowVar p xs
    if v = 0 then decide (0 < d) else !(ltAddSqrt d 0 (-thr) v)

/-- `z >= 0` under the same z-score semantics (`+inf ≥ 0` holds, NaN and
`-inf` do not). -/
def zscoreGeZero (p : ℕ) (xs : List ℚ) : Bool :=
  if xs.length < p ∨ p < 2 then false
  else
    let d := xs.getLastD 0 - windowMean p xs
    let v := windowVar p xs
    if v = 0 then decide (0 < d) else decide (0 ≤ d)

/-- `z < 0` under the same z-score semantics (`-inf < 0` holds — reachable
only with `v = 0 ∧ d < 0`, and `d < 0` also decides the finite case). -/
def zscoreLtZero (p : ℕ) (xs : List ℚ) : Bool :=
  if xs.length < p ∨ p < 2 then false
  else decide (xs.getLastD 0 - windowMean p xs < 0)

/-- Python negative positional indexing `xs.iloc[-k]`: the element at
position `len - k` for `k ≥ 1`; `iloc[-0]` is `iloc[0]`, the first
element. -/
def ilocNeg (xs : List ℚ) (k : ℕ) : ℚ :=
  if k = 0 then xs.getD 0 0 else xs.getD (xs.length - k) 0

/- Simple Moving Average Crossover Strategy (`strategies.py` lines
39-73). -/
namespace SMAcrossover

def lookback : ℕ := 200

/-- `SMAcrossover.generate_signals`; the params `fast_period` (default 20)
and `slow_period` (default 50) are passed explicitly. -/
def generate_signals (fast slow : ℕ) (data : List Bar) : Signal :=
  if data.length < slow + 1 then {} else
  let close := data.map Bar.close
  let curr_fast := rollingMeanLast fast close
  let prev_fast := rollingMeanLast fast close.dropLast
  let curr_slow := rollingMeanLast slow close
  let prev_slow := rollingMeanLast slow close.dropLast
  if prev_fast.le prev_slow && curr_fast.gt curr_slow then
    { entry := true, direction := .long }
  else if prev_fast.ge prev_slow && curr_fast.lt curr_slow then
    { exit := true }
  else {}

end SMAcrossover

/- Exponential Moving Average Crossover Strategy (`strategies.py` lines
76-102). -/
namespace EMAcrossover

def lookback : ℕ := 200

/-- `EMAcrossover.generate_signals`; params `fast_period` (default 12) and
`slow_period` (default 26). -/
def generate_signals (fast slow : ℕ) (data : List Bar) : Signal :=
  if data.length < slow + 1 then {} else
  let close := data.map Bar.close
  let curr_fast := ewmMeanLast fast close
  let prev_fast := ewmMeanLast fast close.dropLast
  let curr_slow := ewmMeanLast slow close
  let prev_slow := ewmMeanLast slow close.dropLast
  if prev_fast.le prev_slow && curr_fast.gt curr_slow then
    { entry := true, direction := .long }
  else if prev_fast.ge prev_slow && curr_fast.lt curr_slow then
    { exit := true }
  else {}

end EMAcrossover

/- RSI Overbought/Oversold Reversal Strategy (`strategies.py` lines
105-141). -/
namespace RSIreversal

def lookback : ℕ := 14

/-- `RSIreversal.generate_signals`; params `period` (default 14),
`overbought` (default 70), `oversold` (default 30). -/
def generate_signals (period : ℕ) (overbought oversold : ℚ) (data : List Bar) : Signal :=
  if data.length < period + 1 then {} else
  let close := data.map Bar.close
  let curr_rsi := rsiLast period close
  let prev_rsi := rsiLast period close.dropLast
  if prev_rsi.le (.fin oversold) && curr_rsi.gt (.fin oversold) then
    { entry := true, direction := .long }
  else if prev_rsi.ge (.fin overbought) && curr_rsi.lt (.fin overbought) then
    { exit := true }
  else {}

end RSIreversal

/- MACD Signal Line Crossover Strategy (`strategies.py` lines 144-175). -/
namespace MACD

def lookback : ℕ := 35

/-- `MACD.generate_signals`; params `fast` (12), `slow` (26), `signal`
(9). -/
def generate_signals (fast slow signal_period : ℕ) (data : List Bar) : Signal :=
  if data.length < slow + signal_period then {} else
  let close := data.map Bar.close
  let curr_macd := macdLast fast slow close
  let prev_macd := macdLast fast slow close.dropLast
  let curr_signal := ewmMeanLast signal_period (macdSeries fast slow close)
  let prev_signal := ewmMeanLast signal_period (macdSeries fast slow close).dropLast
  if prev_macd.le prev_signal && curr_macd.gt curr_signal then
    { entry := true, direction := .long }
  else if prev_macd.ge prev_signal && curr_macd.lt curr_signal then
    { exit := true }
  else {}

end MACD

/- Bollinger Bands Mean Reversion Strategy (`strategies.py` lines
178-213). -/
namespace BollingerBands

def lookback : ℕ := 20

/-- `BollingerBands.generate_signals`; params `period` (20) and `std_dev`
(2.0). -/
def generate_signals (period : ℕ) (std_dev : ℚ) (data : List Bar) : Signal :=
  if data.length < period then {} else
  let close := data.map Bar.close
  let curr_close := close.getLastD 0
  let prev_close := close.dropLast.getLastD 0
  if bollGeLower period std_dev prev_close close.dropLast &&
      bollLtLower period std_dev curr_close close then
    { entry := true, direction := .long }
  else if bollLeUpper period std_dev prev_close close.dropLast &&
      bollGtUpper period std_dev curr_close close then
    { exit := true }
  else {}

end BollingerBands

/- Price Breakout Strategy (`strategies.py` lines 216-248). -/
namespace Breakout

def lookback : ℕ := 20

/-- `Breakout.generate_signals`; params `lookback` (20, here `lb` to avoid
shadowing the class attribute) and `threshold` (0.0).  The window
`high/low.iloc[-lb-1:-1]` is the trailing `lb`-window of the data without
its last bar; an empty window gives NaN extrema, comparing false. -/
def generate_signals (lb : ℕ) (threshold : ℚ) (data : List Bar) : Signal :=
  if data.length < lb + 1 then {} else
  let high := (lastWindow lb data.dropLast).map Bar.high
  let low := (lastWindow lb data.dropLast).map Bar.low
  let curr_close := (data.map Bar.close).getLastD 0
  match high.max?, low.min? with
  | some hi, some lo =>
    let resistance := hi * (1 + threshold / 100)
    let support := lo * (1 - threshold / 100)
    if decide (curr_close > resistance) then { entry := true, direction := .long }
    else if decide (curr_close < support) then { exit := true }
    else {}
  | _, _ => {}

end Breakout

/- Mean Reversion (z-score) Strategy (`strategies.py` lines 251-283). -/
namespace MeanReversion

def lookback : ℕ := 20

/-- `MeanReversion.generate_signals`; params `period` (20) and `z_threshold`
(2.0).  Entry: `z < -thr` and `prev_z >= -thr`; exit: `z >= 0` and
`prev_z < 0`, via the exact z-score comparison helpers. -/
def generate_signals (period : ℕ) (z_threshold : ℚ) (data : List Bar) : Signal :=
  if data.length < period then {} else
  let close := data.map Bar.close
  if zscoreLtNeg period z_threshold close && zscoreGeNeg period z_threshold close.dropLast then
    { entry := true, direction := .long }
  else if zscoreGeZero period close && zscoreLtZero period close.dropLast then
    { exit := true }
  else {}

end MeanReversion

/- Rate of Change Momentum Strategy (`strategies.py` lines 286-311).
Rational division is total (`x/0 = 0`), so a zero close at the referenced
index yields 0 where Python floats give `±inf`/NaN; no claim's statement
depends on that corner. -/
namespace Momentum

def lookback : ℕ := 14

/-- `Momentum.generate_signals`; params `period` (14) and `threshold`
(5.0). -/
def generate_signals (period : ℕ) (threshold : ℚ) (data : List Bar) : Signal :=
  if data.length < period + 1 then {} else
  let close := data.map Bar.close
  let roc := ((ilocNeg close 1 - ilocNeg close period) / ilocNeg close period) * 100
  let prev_roc :=
    ((ilocNeg close 2 - ilocNeg close (period + 1)) / ilocNeg close (period + 1)) * 100
  if decide (prev_roc ≤ threshold) && decide (threshold < roc) then
    { entry := true, direction := .long }
  else if decide (0 ≤ prev_roc) && decide (roc < 0) then
    { exit := true }
  else {}

end Momentum

/-- A strategy instance as the engine sees it: the class attribute
`lookback` plus `generate_signals` with the run's `params` already
applied. -/
structure Strategy where
  lookback : ℕ
  generate_signals : List Bar → Signal

/-- The registry `STRATEGIES` (`strategies.py` lines 315-324), instantiated
at the documented parameter defaults. -/
def STRATEGIES : List (String × Strategy) :=
  [("sma_crossover", ⟨SMAcrossover.lookback, SMAcrossover.generate_signals 20 50⟩),
   ("ema_crossover", ⟨EMAcrossover.lookback, EMAcrossover.generate_signals 12 26⟩),
   ("rsi_reversal", ⟨RSIreversal.lookback, RSIreversal.generate_signals 14 70 30⟩),
   ("macd", ⟨MACD.lookback, MACD.generate_signals 12 26 9⟩),
   ("bollinger_bands", ⟨BollingerBands.lookback, BollingerBands.generate_signals 20 2⟩),
   ("breakout", ⟨Breakout.lookback, Breakout.generate_signals 20 0⟩),
   ("mean_reversion", ⟨MeanReversion.lookback, MeanReversion.generate_signals 20 2⟩),
   ("momentum", ⟨Momentum.lookback, Momentum.generate_signals 14 5⟩)]

/-- `get_strategy` (`strategies.py` lines 327-331); the `ValueError` raised
on an unknown name is `none`. -/
def get_strategy (name : String) : Option Strategy :=
  STRATEGIES.lookup name

/-- A completed trade (`metrics.py` lines 12-23); timestamps are bar
indices. -/
structure Trade where
  entry_time : ℕ
  exit_time : ℕ
  entry_price : ℚ
  exit_price : ℚ
  direction : Direction
  size : ℚ
deriving DecidableEq, Repr, Inhabited

namespace Trade

/-- The `pnl` field derived in `Trade.__post_init__` (`metrics.py` lines
25-31): `(exit - entry)·size` for long, `(entry - exit)·size` for short. -/
def pnl (t : Trade) : ℚ :=
  match t.direction with
  | .long => (t.exit_price - t.entry_price) * t.size
  | .short => (t.entry_price - t.exit_price) * t.size

/-- The `pnl_pct` field derived in `Trade.__post_init__`. -/
def pnl_pct (t : Trade) : ℚ :=
  match t.direction with
  | .long => (t.exit_price - t.entry_price) / t.entry_price * 100
  | .short => (t.entry_price - t.exit_price) / t.entry_price * 100

/-- The `duration` field (`exit_time - entry_time`), in bars. -/
def duration (t : Trade) : ℕ := t.exit_time - t.entry_time

end Trade

/-- The open-position dict built in `backtest.py` lines 126-131. -/
structure Position where
  entry_time : ℕ
  entry_price : ℚ
  direction : Direction
  size : ℚ
deriving DecidableEq, Repr, Inhabited

/-- The mutable locals of `run_backtest`'s simulation loop (`backtest.py`
lines 98-102): cash, the optional open position, the `position_size`
variable tracked alongside it, the trade log and the equity list. -/
structure RunState where
  cash : ℚ
  position : Option Position
  position_size : ℚ
  trades : List Trade
  equity : List ℚ
deriving DecidableEq, Repr, Inhabited

/-- State before the loop: `equity = [initial_capital]`, no position
(`backtest.py` lines 98-102). -/
def initState (initial_capital : ℚ) : RunState :=
  ⟨initial_capital, none, 0, [], [initial_capital]⟩

/-- One iteration of the simulation loop (`backtest.py` lines 104-155) at
bar index `i`.  The source's `if signal.entry and position is None: ...
elif signal.exit and position is not None: ...` chain is written as a match
on the position (the two forms agree in every case). -/
def stepBar (gen : List Bar → Signal) (commission slippage : ℚ) (data : List Bar)
    (st : RunState) (i : ℕ) : RunState :=
  let slice := data.take (i + 1)
  let current_price := (data.getD i default).close
  let signal := gen slice
  let buy_price := current_price * (1 + slippage)
  let sell_price := current_price * (1 - slippage)
  let st1 : RunState :=
    match st.position with
    | none =>
      if signal.entry then
        let position_value := st.cash * (95 / 100)
        let position_size := position_value / buy_price
        let commission_cost := position_value * commission
        { st with
          cash := st.cash - (position_value + commission_cost),
          position := some ⟨i, buy_price, signal.direction, position_size⟩,
          position_size := position_size }
      else st
    | some p =>
      if signal.exit then
        let exit_value := st.position_size * sell_price
        let commission_cost := exit_value * commission
        { st with
          cash := st.cash + exit_value - commission_cost,
          trades := st.trades ++ [⟨p.entry_time, i, p.entry_price, sell_price, p.direction, p.size⟩],
          position := none,
          position_size := 0 }
      else st
  match st1.position with
  | some _ => { st1 with equity := st1.equity ++ [st1.cash + st1.position_size * current_price] }
  | none => { st1 with equity := st1.equity ++ [st1.cash] }

/-- The bar loop `for i in range(strategy.lookback, len(data))`
(`backtest.py` line 104). -/
def runLoop (strat : Strategy) (data : List Bar)
    (initial_capital commission slippage : ℚ) : RunState :=
  (List.range' strat.lookback (data.length - strat.lookback)).foldl
    (stepBar strat.generate_signals commission slippage data) (initState initial_capital)

/-- Forced close of a still-open position after the loop (`backtest.py`
lines 157-173), including the `equity[-1] = cash` overwrite.  The source
leaves the local `position` variable untouched there, so the state's
`position` field is likewise kept, mirroring the function's locals at
exit. -/
def closeFinal (data : List Bar) (commission slippage : ℚ) (st : RunState) : RunState :=
  match st.position with
  | none => st
  | some p =>
    let final_price := (data.getLastD default).close * (1 - slippage)
    let exit_value := st.position_size * final_price
    let commission_cost := exit_value * commission
    let cash := st.cash + exit_value - commission_cost
    { st with
      cash := cash,
      trades := st.trades ++ [⟨p.entry_time, data.length - 1, p.entry_price, final_price, p.direction, p.size⟩],
      equity := st.equity.dropLast ++ [cash] }

/-- The result record (`metrics.py` lines 35-46) restricted to the fields
the claims observe; the metric fields attached afterwards by
`calculate_all_metrics` are covered by the standalone metric functions
below. -/
structure BacktestResult where
  start_date : ℕ
  end_date : ℕ
  initial_capital : ℚ
  final_capital : ℚ
  trades : List Trade
  equity_curve : List ℚ
deriving DecidableEq, Repr, Inhabited

/-- Length of the Python slice `data.index[lookback-1:]` over `n` bars:
for `lookback = 0` the start is `-1`, which wraps to the last element. -/
def indexTailLen (n lookback : ℕ) : ℕ :=
  if lookback = 0 then min 1 n else n - (lookback - 1)

/-- `run_backtest` (`backtest.py` lines 85-194).  The only failure path is
`pd.Series(equity, index=data.index[lookback-1:])` (line 176) raising a
length-mismatch `ValueError`, modelled as `none`; `final_capital` is
`equity[-1]` of the (possibly overwritten) equity list. -/
def run_backtest (strat : Strategy) (data : List Bar)
    (initial_capital commission slippage : ℚ) : Option BacktestResult :=
  let st := closeFinal data commission slippage
    (runLoop strat data initial_capital commission slippage)
  if st.equity.length = indexTailLen data.length strat.lookback then
    some
      { start_date := 0,
        end_date := data.length - 1,
        initial_capital := initial_capital,
        final_capital := st.equity.getLastD 0,
        trades := st.trades,
        equity_curve := st.equity }
  else none

/-- `calculate_returns` (`metrics.py` lines 75-77): `pct_change().dropna()`.
The leading NaN is dropped; a `0 → 0` step is NaN (dropped); a `0 → x ≠ 0`
step is `±inf` in pandas, not representable in ℚ and kept as the junk value
0 — a corner no claim's statement reaches (their equity values are
nonzero). -/
def calculate_returns (equity_curve : List ℚ) : List ℚ :=
  (equity_curve.zip equity_curve.tail).filterMap (fun p =>
    if p.1 = 0 ∧ p.2 = 0 then none else some ((p.2 - p.1) / p.1))

/-- Pandas series mean (callers guard nonempty). -/
def seriesMean (xs : List ℚ) : ℚ := xs.sum / xs.length

/-- Square of the pandas sample standard deviation (`ddof = 1`); the std
itself is its (irrational) square root, and `std == 0` iff this variance is
0.  Callers guard `len ≥ 2`. -/
def seriesVar (xs : List ℚ) : ℚ :=
  (xs.map (fun x => (x - seriesMean xs) ^ 2)).sum / ((xs.length : ℚ) - 1)

/-- Value of an annualized risk ratio.  The generic branch divides by an
annualized standard deviation, irrational in general, so it is kept
symbolically: `ratioSqrt n v` denotes `n / sqrt v`.  The claims only
distinguish the guard branches (`num 0`, `inf`, NaN). -/
inductive MetricVal where
  | num (q : ℚ)
  | inf
  | nanv
  | ratioSqrt (n v : ℚ)
deriving DecidableEq, Repr

/-- `calculate_sharpe_ratio` (`metrics.py` lines 92-104): 0 if fewer than 2
returns or the std is 0, else `(mean·252 - rf) / (std·sqrt 252)` =
`ratioSqrt (mean·252 - rf) (var·252)`. -/
def calculate_sharpe_ratio (returns : List ℚ) (risk_free_rate : ℚ) : MetricVal :=
  if returns.length < 2 ∨ seriesVar returns = 0 then .num 0
  else .ratioSqrt (seriesMean returns * 252 - risk_free_rate) (seriesVar returns * 252)

/-- `calculate_sortino_ratio` (`metrics.py` lines 107-119).  With exactly
one negative return, `downside.std()` is NaN (ddof = 1), which compares
unequal to 0 and flows into the division, making the result NaN. -/
def calculate_sortino_ratio (returns : List ℚ) (risk_free_rate : ℚ) : MetricVal :=
  if returns.length < 2 then .num 0
  else
    let downside := returns.filter (fun r => decide (r < 0))
    if downside.isEmpty ∨ (2 ≤ downside.length ∧ seriesVar downside = 0) then
      (if 0 < seriesMean returns then .inf else .num 0)
    else if downside.length = 1 then .nanv
    else .ratioSqrt (seriesMean returns * 252 - risk_free_rate) (seriesVar downside * 252)

/-! Structural lemmas about the simulation loop: every iteration appends
exactly one equity point, independent of the signal branch taken. -/

theorem stepBar_equity_length (gen : List Bar → Signal) (commission slippage : ℚ)
    (data : List Bar) (st : RunState) (i : ℕ) :
    (stepBar gen commission slippage data st i).equity.length = st.equity.length + 1 := by
  unfold stepBar
  cases hp : st.position with
  | none =>
    by_cases he : (gen (data.take (i + 1))).entry = true <;> simp [he, hp]
  | some p =>
    by_cases he : (gen (data.take (i + 1))).exit = true <;> simp [he, hp]

theorem stepBar_equity_ne_nil (gen : List Bar → Signal) (commission slippage : ℚ)
    (data : List Bar) (st : RunState) (i : ℕ) :
    (stepBar gen commission slippage data st i).equity ≠ [] := by
  unfold stepBar
  cases hp : st.position with
  | none =>
    by_cases he : (gen (data.take (i + 1))).entry = true <;> simp [he, hp]
  | some p =>
    by_cases he : (gen (data.take (i + 1))).exit = true <;> simp [he, hp]

theorem foldl_stepBar_equity_length (gen : List Bar → Signal) (commission slippage : ℚ)
    (data : List Bar) (l : List ℕ) (st : RunState) :
    ((l.foldl (stepBar gen commission slippage data) st).equity.length)
      = st.equity.length + l.length := by
  induction l generalizing st with
  | nil => simp
  | cons i rest ih =>
    simp only [List.foldl_cons, List.length_cons]
    rw [ih, stepBar_equity_length]
    omega

theorem runLoop_equity_length (strat : Strategy) (data : List Bar)
    (initial_capital commission slippage : ℚ) :
    (runLoop strat data initial_capital commission slippage).equity.length
      = 1 + (data.length - strat.lookback) := by
  unfold runLoop
  rw [foldl_stepBar_equity_length]
  simp [initState]

theorem runLoop_equity_ne_nil (strat : Strategy) (data : List Bar)
    (initial_capital commission slippage : ℚ) :
    (runLoop strat data initial_capital commission slippage).equity ≠ [] := by
  have h := runLoop_equity_length strat data initial_capital commission slippage
  intro hnil
  rw [hnil] at h
  simp at h
  omega

theorem closeFinal_equity_length (data : List Bar) (commission slippage : ℚ)
    (st : RunState) (hne : st.equity ≠ []) :
    (closeFinal data commission slippage st).equity.length = st.equity.length := by
  unfold closeFinal
  cases hp : st.position with
  | none => rfl
  | some p =>
    simp only [List.length_append, List.length_dropLast, List.length_cons, List.length_nil]
    have : st.equity.length ≠ 0 := by simpa [List.length_eq_zero] using hne
    omega

theorem closeFinal_equity_ne_nil (data : List Bar) (commission slippage : ℚ)
    (st : RunState) (hne : st.equity ≠ []) :
    (closeFinal data commission slippage st).equity ≠ [] := by
  unfold closeFinal
  cases hp : st.position with
  | none => exact hne
  | some p => simp

/-- The equity list built by a run has `len(data) - lookback + 1` entries
(the pre-loop `[initial_capital]` seed plus one per simulated bar). -/
theorem run_equity_length (strat : Strategy) (data : List Bar)
    (initial_capital commission slippage : ℚ) :
    (closeFinal data commission slippage
        (runLoop strat data initial_capital commission slippage)).equity.length
      = 1 + (data.length - strat.lookback) := by
  rw [closeFinal_equity_length _ _ _ _ (runLoop_equity_ne_nil _ _ _ _ _)]
  exact runLoop_equity_length _ _ _ _ _

/-- The `pd.Series(equity, index=data.index[lookback-1:])` construction
succeeds exactly when `1 ≤ lookback ≤ len(data)`. -/
theorem run_backtest_cond (strat : Strategy) (data : List Bar)
    (initial_capital commission slippage : ℚ) :
    ((closeFinal data commission slippage
        (runLoop strat data initial_capital commission slippage)).equity.length
      = indexTailLen data.length strat.lookback)
      ↔ (1 ≤ strat.lookback ∧ strat.lookback ≤ data.length) := by
  rw [run_equity_length]
  unfold indexTailLen
  split <;> omega

/-- `run_backtest` returns a result exactly when `1 ≤ lookback ≤
len(data)`; otherwise the equity-curve construction raises. -/
theorem run_backtest_isSome_iff (strat : Strategy) (data : List Bar)
    (initial_capital commission slippage : ℚ) :
    (run_backtest strat data initial_capital commission slippage).isSome = true
      ↔ (1 ≤ strat.lookback ∧ strat.lookback ≤ data.length) := by
  rw [← run_backtest_cond strat data initial_capital commission slippage]
  unfold run_backtest
  dsimp only
  split <;> simp_all

/-- Shape of a successful run: the result record is assembled from the
final loop state, field by field. -/
theorem run_backtest_eq_some (strat : Strategy) (data : List Bar)
    (initial_capital commission slippage : ℚ)
    (h1 : 1 ≤ strat.lookback) (h2 : strat.lookback ≤ data.length) :
    run_backtest strat data initial_capital commission slippage
      = some
        { start_date := 0,
          end_date := data.length - 1,
          initial_capital := initial_capital,
          final_capital := (closeFinal data commission slippage
            (runLoop strat data initial_capital commission slippage)).equity.getLastD 0,
          trades := (closeFinal data commission slippage
            (runLoop strat data initial_capital commission slippage)).trades,
          equity_curve := (closeFinal data commission slippage
            (runLoop strat data initial_capital commission slippage)).equity } := by
  unfold run_backtest
  dsimp only
  rw [if_pos ((run_backtest_cond strat data initial_capital commission slippage).mpr ⟨h1, h2⟩)]

theorem run_backtest_equity_len (strat : Strategy) (data : List Bar)
    (initial_capital commission slippage : ℚ)
    (h1 : 1 ≤ strat.lookback) (h2 : strat.lookback ≤ data.length) :
    (run_backtest strat data initial_capital commission slippage).map
        (fun r => r.equity_curve.length)
      = some (data.length - strat.lookback + 1) := by
  rw [run_backtest_eq_some strat data initial_capital commission slippage h1 h2]
  dsimp only [Option.map]
  rw [run_equity_length, Nat.add_comm]

/-! Crossing semantics: extracting the branch conditions of each
`generate_signals` and showing the same signal cannot fire on two
consecutive bars (the bar histories `data` and `data ++ [b]`). -/

theorem PF.gt_imp_not_le {a b : PF} (h : PF.gt a b = true) : PF.le a b = false :=
  PF.lt_imp_not_le h

theorem PF.lt_imp_not_ge {a b : PF} (h : PF.lt a b = true) : PF.ge a b = false :=
  PF.lt_imp_not_le h

theorem dropLast_map_close_append (data : List Bar) (b : Bar) :
    ((data ++ [b]).map Bar.close).dropLast = data.map Bar.close := by
  simp

theorem map_close_append (data : List Bar) (b : Bar) :
    (data ++ [b]).map Bar.close = data.map Bar.close ++ [b.close] := by
  simp

theorem sma_entry_cond (fast slow : ℕ) (data : List Bar)
    (h : (SMAcrossover.generate_signals fast slow data).entry = true) :
    PF.le (rollingMeanLast fast (data.map Bar.close).dropLast)
        (rollingMeanLast slow (data.map Bar.close).dropLast) = true ∧
      PF.gt (rollingMeanLast fast (data.map Bar.close))
        (rollingMeanLast slow (data.map Bar.close)) = true := by
  unfold SMAcrossover.generate_signals at h
  dsimp only at h
  split at h
  · exact absurd h (by simp)
  · split at h
    next hc => exact (Bool.and_eq_true _ _).mp hc
    next =>
      split at h
      · exact absurd h (by simp)
      · exact absurd h (by simp)

theorem sma_exit_cond (fast slow : ℕ) (data : List Bar)
    (h : (SMAcrossover.generate_signals fast slow data).exit = true) :
    PF.ge (rollingMeanLast fast (data.map Bar.close).dropLast)
        (rollingMeanLast slow (data.map Bar.close).dropLast) = true ∧
      PF.lt (rollingMeanLast fast (data.map Bar.close))
        (rollingMeanLast slow (data.map Bar.close)) = true := by
  unfold SMAcrossover.generate_signals at h
  dsimp only at h
  split at h
  · exact absurd h (by simp)
  · split at h
    · exact absurd h (by simp)
    · split at h
      next hc => exact (Bool.and_eq_true _ _).mp hc
      next => exact absurd h (by simp)

theorem sma_no_refire_entry (fast slow : ℕ) (data : List Bar) (b : Bar) :
    ((SMAcrossover.generate_signals fast slow data).entry &&
      (SMAcrossover.generate_signals fast slow (data ++ [b])).entry) = false := by
  cases h1 : (SMAcrossover.generate_signals fast slow data).entry
  · simp
  · cases h2 : (SMAcrossover.generate_signals fast slow (data ++ [b])).entry
    · simp
    · obtain ⟨hle, -⟩ := sma_entry_cond fast slow (data ++ [b]) h2
      obtain ⟨-, hgt⟩ := sma_entry_cond fast slow data h1
      rw [dropLast_map_close_append] at hle
      rw [PF.gt_imp_not_le hgt] at hle
      exact absurd hle (by simp)

theorem sma_no_refire_exit (fast slow : ℕ) (data : List Bar) (b : Bar) :
    ((SMAcrossover.generate_signals fast slow data).exit &&
      (SMAcrossover.generate_signals fast slow (data ++ [b])).exit) = false := by
  cases h1 : (SMAcrossover.generate_signals fast slow data).exit
  · simp
  · cases h2 : (SMAcrossover.generate_signals fast slow (data ++ [b])).exit
    · simp
    · obtain ⟨hge, -⟩ := sma_exit_cond fast slow (data ++ [b]) h2
      obtain ⟨-, hlt⟩ := sma_exit_cond fast slow data h1
      rw [dropLast_map_close_append] at hge
      rw [PF.lt_imp_not_ge hlt] at hge
      exact absurd hge (by simp)

theorem ema_entry_cond (fast slow : ℕ) (data : List Bar)
    (h : (EMAcrossover.generate_signals fast slow data).entry = true) :
    PF.le (ewmMeanLast fast (data.map Bar.close).dropLast)
        (ewmMeanLast slow (data.map Bar.close).dropLast) = true ∧
      PF.gt (ewmMeanLast fast (data.map Bar.close))
        (ewmMeanLast slow (data.map Bar.close)) = true := by
  unfold EMAcrossover.generate_signals at h
  dsimp only at h
  split at h
  · exact absurd h (by simp)
  · split at h
    next hc => exact (Bool.and_eq_true _ _).mp hc
    next =>
      split at h
      · exact absurd h (by simp)
      · exact absurd h (by simp)

theorem ema_exit_cond (fast slow : ℕ) (data : List Bar)
    (h : (EMAcrossover.generate_signals fast slow data).exit = true) :
    PF.ge (ewmMeanLast fast (data.map Bar.close).dropLast)
        (ewmMeanLast slow (data.map Bar.close).dropLast) = true ∧
      PF.lt (ewmMeanLast fast (data.map Bar.close))
        (ewmMeanLast slow (data.map Bar.close)) = true := by
  unfold EMAcrossover.generate_signals at h
  dsimp only at h
  split at h
  · exact absurd h (by simp)
  · split at h
    · exact absurd h (by simp)
    · split at h
      next hc => exact (Bool.and_eq_true _ _).mp hc
      next => exact absurd h (by simp)

theorem ema_no_refire_entry (fast slow : ℕ) (data : List Bar) (b : Bar) :
    ((EMAcrossover.generate_signals fast slow data).entry &&
      (EMAcrossover.generate_signals fast slow (data ++ [b])).entry) = false := by
  cases h1 : (EMAcrossover.generate_signals fast slow data).entry
  · simp
  · cases h2 : (EMAcrossover.generate_signals fast slow (data ++ [b])).entry
    · simp
    · obtain ⟨hle, -⟩ := ema_entry_cond fast slow (data ++ [b]) h2
      obtain ⟨-, hgt⟩ := ema_entry_cond fast slow data h1
      rw [dropLast_map_close_append] at hle
      rw [PF.gt_imp_not_le hgt] at hle
      exact absurd hle (by simp)

theorem ema_no_refire_exit (fast slow : ℕ) (data : List Bar) (b : Bar) :
    ((EMAcrossover.generate_signals fast slow data).exit &&
      (EMAcrossover.generate_signals fast slow (data ++ [b])).exit) = false := by
  cases h1 : (EMAcrossover.generate_signals fast slow data).exit
  · simp
  · cases h2 : (EMAcrossover.generate_signals fast slow (data ++ [b])).exit
    · simp
    · obtain ⟨hge, -⟩ := ema_exit_cond fast slow (data ++ [b]) h2
      obtain ⟨-, hlt⟩ := ema_exit_cond fast slow data h1
      rw [dropLast_map_close_append] at hge
      rw [PF.lt_imp_not_ge hlt] at hge
      exact absurd hge (by simp)

theorem rsi_entry_cond (period : ℕ) (overbought oversold : ℚ) (data : List Bar)
    (h : (RSIreversal.generate_signals period overbought oversold data).entry = true) :
    PF.le (rsiLast period (data.map Bar.close).dropLast) (.fin oversold) = true ∧
      PF.gt (rsiLast period (data.map Bar.close)) (.fin oversold) = true := by
  unfold RSIreversal.generate_signals at h
  dsimp only at h
  split at h
  · exact absurd h (by simp)
  · split at h
    next hc => exact (Bool.and_eq_true _ _).mp hc
    next =>
      split at h
      · exact absurd h (by simp)
      · exact absurd h (by simp)

theorem rsi_exit_cond (period : ℕ) (overbought oversold : ℚ) (data : List Bar)
    (h : (RSIreversal.generate_signals period overbought oversold data).exit = true) :
    PF.ge (rsiLast period (data.map Bar.close).dropLast) (.fin overbought) = true ∧
      PF.lt (rsiLast period (data.map Bar.close)) (.fin overbought) = true := by
  unfold RSIreversal.generate_signals at h
  dsimp only at h
  split at h
  · exact absurd h (by simp)
  · split at h
    · exact absurd h (by simp)
    · split at h
      next hc => exact (Bool.and_eq_true _ _).mp hc
      next => exact absurd h (by simp)

theorem rsi_no_refire_entry (period : ℕ) (ob os : ℚ) (data : List Bar) (b : Bar) :
    ((RSIreversal.generate_signals period ob os data).entry &&
      (RSIreversal.generate_signals period ob os (data ++ [b])).entry) = false := by
  cases h1 : (RSIreversal.generate_signals period ob os data).entry
  · simp
  · cases h2 : (RSIreversal.generate_signals period ob os (data ++ [b])).entry
    · simp
    · obtain ⟨hle, -⟩ := rsi_entry_cond period ob os (data ++ [b]) h2
      obtain ⟨-, hgt⟩ := rsi_entry_cond period ob os data h1
      rw [dropLast_map_close_append] at hle
      rw [PF.gt_imp_not_le hgt] at hle
      exact absurd hle (by simp)

theorem rsi_no_refire_exit (period : ℕ) (ob os : ℚ) (data : List Bar) (b : Bar) :
    ((RSIreversal.generate_signals period ob os data).exit &&
      (RSIreversal.generate_signals period ob os (data ++ [b])).exit) = false := by
  cases h1 : (RSIreversal.generate_signals period ob os data).exit
  · simp
  · cases h2 : (RSIreversal.generate_signals period ob os (data ++ [b])).exit
    · simp
    · obtain ⟨hge, -⟩ := rsi_exit_cond period ob os (data ++ [b]) h2
      obtain ⟨-, hlt⟩ := rsi_exit_cond period ob os data h1
      rw [dropLast_map_close_append] at hge
      rw [PF.lt_imp_not_ge hlt] at hge
      exact absurd hge (by simp)

theorem macdSeries_concat (fast slow : ℕ) (l : List ℚ) (c : ℚ) :
    macdSeries fast slow (l ++ [c])
      = macdSeries fast slow l ++ [ewmMean fast (l ++ [c]) - ewmMean slow (l ++ [c])] := by
  unfold macdSeries
  rw [List.length_append, List.length_cons, List.length_nil, List.range_succ, List.map_append]
  congr 1
  · apply List.map_congr_left
    intro i hi
    rw [List.mem_range] at hi
    rw [List.take_append_of_le_length (by omega)]
  · simp only [List.map_cons, List.map_nil]
    rw [List.take_of_length_le (by simp)]

theorem macd_entry_cond (fast slow sp : ℕ) (data : List Bar)
    (h : (MACD.generate_signals fast slow sp data).entry = true) :
    PF.le (macdLast fast slow (data.map Bar.close).dropLast)
        (ewmMeanLast sp (macdSeries fast slow (data.map Bar.close)).dropLast) = true ∧
      PF.gt (macdLast fast slow (data.map Bar.close))
        (ewmMeanLast sp (macdSeries fast slow (data.map Bar.close))) = true := by
  unfold MACD.generate_signals at h
  dsimp only at h
  split at h
  · exact absurd h (by simp)
  · split at h
    next hc => exact (Bool.and_eq_true _ _).mp hc
    next =>
      split at h
      · exact absurd h (by simp)
      · exact absurd h (by simp)

theorem macd_exit_cond (fast slow sp : ℕ) (data : List Bar)
    (h : (MACD.generate_signals fast slow sp data).exit = true) :
    PF.ge (macdLast fast slow (data.map Bar.close).dropLast)
        (ewmMeanLast sp (macdSeries fast slow (data.map Bar.close)).dropLast) = true ∧
      PF.lt (macdLast fast slow (data.map Bar.close))
        (ewmMeanLast sp (macdSeries fast slow (data.map Bar.close))) = true := by
  unfold MACD.generate_signals at h
  dsimp only at h
  split at h
  · exact absurd h (by simp)
  · split at h
    · exact absurd h (by simp)
    · split at h
      next hc => exact (Bool.and_eq_true _ _).mp hc
      next => exact absurd h (by simp)

theorem macd_no_refire_entry (fast slow sp : ℕ) (data : List Bar) (b : Bar) :
    ((MACD.generate_signals fast slow sp data).entry &&
      (MACD.generate_signals fast slow sp (data ++ [b])).entry) = false := by
  cases h1 : (MACD.generate_signals fast slow sp data).entry
  · simp
  · cases h2 : (MACD.generate_signals fast slow sp (data ++ [b])).entry
    · simp
    · obtain ⟨hle, -⟩ := macd_entry_cond fast slow sp (data ++ [b]) h2
      obtain ⟨-, hgt⟩ := macd_entry_cond fast slow sp data h1
      rw [map_close_append] at hle
      rw [List.dropLast_concat, macdSeries_concat, List.dropLast_concat] at hle
      rw [PF.gt_imp_not_le hgt] at hle
      exact absurd hle (by simp)

theorem macd_no_refire_exit (fast slow sp : ℕ) (data : List Bar) (b : Bar) :
    ((MACD.generate_signals fast slow sp data).exit &&
      (MACD.generate_signals fast slow sp (data ++ [b])).exit) = false := by
  cases h1 : (MACD.generate_signals fast slow sp data).exit
  · simp
  · cases h2 : (MACD.generate_signals fast slow sp (data ++ [b])).exit
    · simp
    · obtain ⟨hge, -⟩ := macd_exit_cond fast slow sp (data ++ [b]) h2
      obtain ⟨-, hlt⟩ := macd_exit_cond fast slow sp data h1
      rw [map_close_append] at hge
      rw [List.dropLast_concat, macdSeries_concat, List.dropLast_concat] at hge
      rw [PF.lt_imp_not_ge hlt] at hge
      exact absurd hge (by simp)

theorem bollLtLower_imp_not_ge (p : ℕ) (k c : ℚ) (xs : List ℚ)
    (h : bollLtLower p k c xs = true) : bollGeLower p k c xs = false := by
  unfold bollLtLower at h
  unfold bollGeLower
  split at h
  · exact absurd h (by simp)
  next hg => rw [if_neg hg]; simp [h]

theorem bollGtUpper_imp_not_le (p : ℕ) (k c : ℚ) (xs : List ℚ)
    (h : bollGtUpper p k c xs = true) : bollLeUpper p k c xs = false := by
  unfold bollGtUpper at h
  unfold bollLeUpper
  split at h
  · exact absurd h (by simp)
  next hg =>
    rw [if_neg hg]
    simpa using h

theorem boll_entry_cond (p : ℕ) (k : ℚ) (data : List Bar)
    (h : (BollingerBands.generate_signals p k data).entry = true) :
    bollGeLower p k ((data.map Bar.close).dropLast.getLastD 0) (data.map Bar.close).dropLast = true ∧
      bollLtLower p k ((data.map Bar.close).getLastD 0) (data.map Bar.close) = true := by
  unfold BollingerBands.generate_signals at h
  dsimp only at h
  split at h
  · exact absurd h (by simp)
  · split at h
    next hc => exact (Bool.and_eq_true _ _).mp hc
    next =>
      split at h
      · exact absurd h (by simp)
      · exact absurd h (by simp)

theorem boll_exit_cond (p : ℕ) (k : ℚ) (data : List Bar)
    (h : (BollingerBands.generate_signals p k data).exit = true) :
    bollLeUpper p k ((data.map Bar.close).dropLast.getLastD 0) (data.map Bar.close).dropLast = true ∧
      bollGtUpper p k ((data.map Bar.close).getLastD 0) (data.map Bar.close) = true := by
  unfold BollingerBands.generate_signals at h
  dsimp only at h
  split at h
  · exact absurd h (by simp)
  · split at h
    · exact absurd h (by simp)
    · split at h
      next hc => exact (Bool.and_eq_true _ _).mp hc
      next => exact absurd h (by simp)

theorem boll_no_refire_entry (p : ℕ) (k : ℚ) (data : List Bar) (b : Bar) :
    ((BollingerBands.generate_signals p k data).entry &&
      (BollingerBands.generate_signals p k (data ++ [b])).entry) = false := by
  cases h1 : (BollingerBands.generate_signals p k data).entry
  · simp
  · cases h2 : (BollingerBands.generate_signals p k (data ++ [b])).entry
    · simp
    · obtain ⟨hge, -⟩ := boll_entry_cond p k (data ++ [b]) h2
      obtain ⟨-, hlt⟩ := boll_entry_cond p k data h1
      rw [dropLast_map_close_append] at hge
      rw [bollLtLower_imp_not_ge p k _ _ hlt] at hge
      exact absurd hge (by simp)

theorem boll_no_refire_exit (p : ℕ) (k : ℚ) (data : List Bar) (b : Bar) :
    ((BollingerBands.generate_signals p k data).exit &&
      (BollingerBands.generate_signals p k (data ++ [b])).exit) = false := by
  cases h1 : (BollingerBands.generate_signals p k data).exit
  · simp
  · cases h2 : (BollingerBands.generate_signals p k (data ++ [b])).exit
    · simp
    · obtain ⟨hle, -⟩ := boll_exit_cond p k (data ++ [b]) h2
      obtain ⟨-, hgt⟩ := boll_exit_cond p k data h1
      rw [dropLast_map_close_append] at hle
      rw [bollGtUpper_imp_not_le p k _ _ hgt] at hle
      exact absurd hle (by simp)

theorem zscoreLtNeg_imp_not_ge (p : ℕ) (thr : ℚ) (xs : List ℚ)
    (h : zscoreLtNeg p thr xs = true) : zscoreGeNeg p thr xs = false := by
  unfold zscoreLtNeg at h
  unfold zscoreGeNeg
  split at h
  · exact absurd h (by simp)
  next hg =>
    rw [if_neg hg]
    dsimp only at h ⊢
    split at h
    next hv =>
      rw [if_pos hv]
      simp at h ⊢
      linarith
    next hv =>
      rw [if_neg hv]
      simp only [h, Bool.not_true]

theorem zscoreGeZero_imp_not_lt (p : ℕ) (xs : List ℚ)
    (h : zscoreGeZero p xs = true) : zscoreLtZero p xs = false := by
  unfold zscoreGeZero at h
  unfold zscoreLtZero
  split at h
  · exact absurd h (by simp)
  next hg =>
    rw [if_neg hg]
    dsimp only at h
    split at h
    · simp at h ⊢
      linarith
    · simp at h ⊢
      linarith

theorem mr_entry_cond (p : ℕ) (thr : ℚ) (data : List Bar)
    (h : (MeanReversion.generate_signals p thr data).entry = true) :
    zscoreLtNeg p thr (data.map Bar.close) = true ∧
      zscoreGeNeg p thr (data.map Bar.close).dropLast = true := by
  unfold MeanReversion.generate_signals at h
  dsimp only at h
  split at h
  · exact absurd h (by simp)
  · split at h
    next hc => exact (Bool.and_eq_true _ _).mp hc
    next =>
      split at h
      · exact absurd h (by simp)
      · exact absurd h (by simp)

theorem mr_exit_cond (p : ℕ) (thr : ℚ) (data : List Bar)
    (h : (MeanReversion.generate_signals p thr data).exit = true) :
    zscoreGeZero p (data.map Bar.close) = true ∧
      zscoreLtZero p (data.map Bar.close).dropLast = true := by
  unfold MeanReversion.generate_signals at h
  dsimp only at h
  split at h
  · exact absurd h (by simp)
  · split at h
    · exact absurd h (by simp)
    · split at h
      next hc => exact (Bool.and_eq_true _ _).mp hc
      next => exact absurd h (by simp)

theorem mr_no_refire_entry (p : ℕ) (thr : ℚ) (data : List Bar) (b : Bar) :
    ((MeanReversion.generate_signals p thr data).entry &&
      (MeanReversion.generate_signals p thr (data ++ [b])).entry) = false := by
  cases h1 : (MeanReversion.generate_signals p thr data).entry
  · simp
  · cases h2 : (MeanReversion.generate_signals p thr (data ++ [b])).entry
    · simp
    · obtain ⟨-, hge⟩ := mr_entry_cond p thr (data ++ [b]) h2
      obtain ⟨hlt, -⟩ := mr_entry_cond p thr data h1
      rw [dropLast_map_close_append] at hge
      rw [zscoreLtNeg_imp_not_ge p thr _ hlt] at hge
      exact absurd hge (by simp)

theorem mr_no_refire_exit (p : ℕ) (thr : ℚ) (data : List Bar) (b : Bar) :
    ((MeanReversion.generate_signals p thr data).exit &&
      (MeanReversion.generate_signals p thr (data ++ [b])).exit) = false := by
  cases h1 : (MeanReversion.generate_signals p thr data).exit
  · simp
  · cases h2 : (MeanReversion.generate_signals p thr (data ++ [b])).exit
    · simp
    · obtain ⟨-, hlt⟩ := mr_exit_cond p thr (data ++ [b]) h2
      obtain ⟨hge, -⟩ := mr_exit_cond p thr data h1
      rw [dropLast_map_close_append] at hlt
      rw [zscoreGeZero_imp_not_lt p _ hge] at hlt
      exact absurd hlt (by simp)

theorem ilocNeg_concat (xs : List ℚ) (c : ℚ) (k : ℕ) (h1 : 1 ≤ k) (h2 : k ≤ xs.length) :
    ilocNeg (xs ++ [c]) (k + 1) = ilocNeg xs k := by
  unfold ilocNeg
  rw [if_neg (by omega), if_neg (by omega), List.length_append, List.length_cons,
    List.length_nil]
  have hlt : xs.length + 1 - (k + 1) < xs.length := by omega
  rw [List.getD_append _ _ _ _ (by omega)]
  congr 1
  omega

theorem momentum_entry_cond (period : ℕ) (thr : ℚ) (data : List Bar)
    (h : (Momentum.generate_signals period thr data).entry = true) :
    ¬data.length < period + 1 ∧
      ((ilocNeg (data.map Bar.close) 2 - ilocNeg (data.map Bar.close) (period + 1)) /
          ilocNeg (data.map Bar.close) (period + 1)) * 100 ≤ thr ∧
      thr < ((ilocNeg (data.map Bar.close) 1 - ilocNeg (data.map Bar.close) period) /
          ilocNeg (data.map Bar.close) period) * 100 := by
  unfold Momentum.generate_signals at h
  dsimp only at h
  split at h
  · exact absurd h (by simp)
  next hg =>
    split at h
    next hc =>
      obtain ⟨hc1, hc2⟩ := (Bool.and_eq_true _ _).mp hc
      exact ⟨hg, of_decide_eq_true hc1, of_decide_eq_true hc2⟩
    next =>
      split at h
      · exact absurd h (by simp)
      · exact absurd h (by simp)

theorem momentum_exit_cond (period : ℕ) (thr : ℚ) (data : List Bar)
    (h : (Momentum.generate_signals period thr data).exit = true) :
    ¬data.length < period + 1 ∧
      0 ≤ ((ilocNeg (data.map Bar.close) 2 - ilocNeg (data.map Bar.close) (period + 1)) /
          ilocNeg (data.map Bar.close) (period + 1)) * 100 ∧
      ((ilocNeg (data.map Bar.close) 1 - ilocNeg (data.map Bar.close) period) /
          ilocNeg (data.map Bar.close) period) * 100 < 0 := by
  unfold Momentum.generate_signals at h
  dsimp only at h
  split at h
  · exact absurd h (by simp)
  next hg =>
    split at h
    · exact absurd h (by simp)
    · split at h
      next hc =>
        obtain ⟨hc1, hc2⟩ := (Bool.and_eq_true _ _).mp hc
        exact ⟨hg, of_decide_eq_true hc1, of_decide_eq_true hc2⟩
      next => exact absurd h (by simp)

theorem momentum_no_refire_entry (k : ℕ) (thr : ℚ) (data : List Bar) (b : Bar) :
    ((Momentum.generate_signals (k + 1) thr data).entry &&
      (Momentum.generate_signals (k + 1) thr (data ++ [b])).entry) = false := by
  cases h1 : (Momentum.generate_signals (k + 1) thr data).entry
  · simp
  · cases h2 : (Momentum.generate_signals (k + 1) thr (data ++ [b])).entry
    · simp
    · obtain ⟨hg, hprev, -⟩ := momentum_entry_cond (k + 1) thr (data ++ [b]) h2
      obtain ⟨hg1, -, hroc⟩ := momentum_entry_cond (k + 1) thr data h1
      rw [map_close_append] at hprev
      have hlen : k + 2 ≤ (data.map Bar.close).length := by
        simp only [List.length_map]
        omega
      rw [show (2 : ℕ) = 1 + 1 from rfl, ilocNeg_concat _ _ 1 (by omega) (by omega),
        show k + 1 + 1 = (k + 1) + 1 from rfl,
        ilocNeg_concat _ _ (k + 1) (by omega) (by omega)] at hprev
      linarith

theorem momentum_no_refire_exit (k : ℕ) (thr : ℚ) (data : List Bar) (b : Bar) :
    ((Momentum.generate_signals (k + 1) thr data).exit &&
      (Momentum.generate_signals (k + 1) thr (data ++ [b])).exit) = false := by
  cases h1 : (Momentum.generate_signals (k + 1) thr data).exit
  · simp
  · cases h2 : (Momentum.generate_signals (k + 1) thr (data ++ [b])).exit
    · simp
    · obtain ⟨hg, hprev, -⟩ := momentum_exit_cond (k + 1) thr (data ++ [b]) h2
      obtain ⟨hg1, -, hroc⟩ := momentum_exit_cond (k + 1) thr data h1
      rw [map_close_append] at hprev
      have hlen : k + 2 ≤ (data.map Bar.close).length := by
        simp only [List.length_map]
        omega
      rw [show (2 : ℕ) = 1 + 1 from rfl, ilocNeg_concat _ _ 1 (by omega) (by omega),
        show k + 1 + 1 = (k + 1) + 1 from rfl,
        ilocNeg_concat _ _ (k + 1) (by omega) (by omega)] at hprev
      linarith

/-! Direction of emitted signals: every branch of every registered strategy
constructs a `Signal` whose `direction` is `"long"` (the explicit literal or
the dataclass default). -/

theorem sma_direction_long (fast slow : ℕ) (data : List Bar) :
    (SMAcrossover.generate_signals fast slow data).direction = .long := by
  unfold SMAcrossover.generate_signals
  dsimp only
  split
  · rfl
  · split
    · rfl
    · split <;> rfl

theorem ema_direction_long (fast slow : ℕ) (data : List Bar) :
    (EMAcrossover.generate_signals fast slow data).direction = .long := by
  unfold EMAcrossover.generate_signals
  dsimp only
  split
  · rfl
  · split
    · rfl
    · split <;> rfl

theorem rsi_direction_long (period : ℕ) (ob os : ℚ) (data : List Bar) :
    (RSIreversal.generate_signals period ob os data).direction = .long := by
  unfold RSIreversal.generate_signals
  dsimp only
  split
  · rfl
  · split
    · rfl
    · split <;> rfl

theorem macd_direction_long (fast slow sp : ℕ) (data : List Bar) :
    (MACD.generate_signals fast slow sp data).direction = .long := by
  unfold MACD.generate_signals
  dsimp only
  split
  · rfl
  · split
    · rfl
    · split <;> rfl

theorem boll_direction_long (p : ℕ) (k : ℚ) (data : List Bar) :
    (BollingerBands.generate_signals p k data).direction = .long := by
  unfold BollingerBands.generate_signals
  dsimp only
  split
  · rfl
  · split
    · rfl
    · split <;> rfl

theorem breakout_direction_long (lb : ℕ) (thr : ℚ) (data : List Bar) :
    (Breakout.generate_signals lb thr data).direction = .long := by
  unfold Breakout.generate_signals
  dsimp only
  split
  · rfl
  · split
    · split
      · rfl
      · split <;> rfl
    · rfl

theorem mr_direction_long (p : ℕ) (thr : ℚ) (data : List Bar) :
    (MeanReversion.generate_signals p thr data).direction = .long := by
  unfold MeanReversion.generate_signals
  dsimp only
  split
  · rfl
  · split
    · rfl
    · split <;> rfl

theorem momentum_direction_long (period : ℕ) (thr : ℚ) (data : List Bar) :
    (Momentum.generate_signals period thr data).direction = .long := by
  unfold Momentum.generate_signals
  dsimp only
  split
  · rfl
  · split
    · rfl
    · split <;> rfl

/-! Engine invariants: fill prices, trade directions and cash accounting,
by induction over the bar loop. -/

theorem getD_mem {α : Type} {l : List α} {i : ℕ} (d : α) (h : i < l.length) :
    l.getD i d ∈ l := by
  rw [List.getD_eq_getElem l d h]
  exact List.getElem_mem h

theorem getLastD_mem {α : Type} {l : List α} (d : α) (h : l ≠ []) :
    l.getLastD d ∈ l := by
  cases l with
  | nil => exact absurd rfl h
  | cons a as =>
    rw [List.getLastD_eq_getLast?, List.getLast?_eq_getLast (a :: as) (by simp)]
    exact List.getLast_mem (by simp)

/-- The long-entry fill prices `close·(1+slippage)` of every bar. -/
def buyPrices (data : List Bar) (slippage : ℚ) : List ℚ :=
  data.map (fun b => b.close * (1 + slippage))

/-- The exit fill prices `close·(1-slippage)` of every bar. -/
def sellPrices (data : List Bar) (slippage : ℚ) : List ℚ :=
  data.map (fun b => b.close * (1 - slippage))

/-- A trade is well-formed for a run: long, opened at some bar's buy price
and closed at some bar's sell price. -/
def tradeOKb (data : List Bar) (slippage : ℚ) (t : Trade) : Bool :=
  decide (t.direction = .long) && decide (t.entry_price ∈ buyPrices data slippage) &&
    decide (t.exit_price ∈ sellPrices data slippage)

theorem stepBar_trade_inv (gen : List Bar → Signal)
    (hdir : ∀ s, (gen s).direction = .long) (commission slippage : ℚ) (data : List Bar)
    (st : RunState) (i : ℕ) (hi : i < data.length)
    (h1 : ∀ t ∈ st.trades, tradeOKb data slippage t = true)
    (h2 : ∀ p, st.position = some p →
      p.direction = .long ∧ p.entry_price ∈ buyPrices data slippage) :
    (∀ t ∈ (stepBar gen commission slippage data st i).trades,
        tradeOKb data slippage t = true) ∧
      (∀ p, (stepBar gen commission slippage data st i).position = some p →
        p.direction = .long ∧ p.entry_price ∈ buyPrices data slippage) := by
  unfold stepBar
  cases hp : st.position with
  | none =>
    by_cases he : (gen (data.take (i + 1))).entry = true
    · simp only [he, if_true]
      refine ⟨by simpa using h1, ?_⟩
      intro p hps
      simp only [Option.some.injEq] at hps
      subst hps
      exact ⟨hdir _, List.mem_map.mpr ⟨data.getD i default, getD_mem default hi, rfl⟩⟩
    · rw [Bool.not_eq_true] at he
      simp only [he, Bool.false_eq_true, if_false, hp]
      refine ⟨by simpa using h1, ?_⟩
      intro p hps
      exact absurd hps (by simp)
  | some p =>
    by_cases he : (gen (data.take (i + 1))).exit = true
    · simp only [he, if_true]
      constructor
      · intro t ht
        simp only [List.mem_append, List.mem_singleton] at ht
        rcases ht with ht | rfl
        · exact h1 t ht
        · obtain ⟨hd, hb⟩ := h2 p hp
          unfold tradeOKb
          simp only [Bool.and_eq_true, decide_eq_true_eq]
          refine ⟨⟨hd, hb⟩, ?_⟩
          exact List.mem_map.mpr ⟨data.getD i default, getD_mem default hi, rfl⟩
      · intro q hq
        simp at hq
    · rw [Bool.not_eq_true] at he
      simp only [he, Bool.false_eq_true, if_false, hp]
      refine ⟨by simpa using h1, ?_⟩
      intro q hq
      simp only [Option.some.injEq] at hq
      subst hq
      exact h2 _ hp

theorem foldl_stepBar_trade_inv (gen : List Bar → Signal)
    (hdir : ∀ s, (gen s).direction = .long) (commission slippage : ℚ) (data : List Bar) :
    ∀ (l : List ℕ) (st : RunState), (∀ i ∈ l, i < data.length) →
      (∀ t ∈ st.trades, tradeOKb data slippage t = true) →
      (∀ p, st.position = some p →
        p.direction = .long ∧ p.entry_price ∈ buyPrices data slippage) →
      (∀ t ∈ (l.foldl (stepBar gen commission slippage data) st).trades,
          tradeOKb data slippage t = true) ∧
        (∀ p, (l.foldl (stepBar gen commission slippage data) st).position = some p →
          p.direction = .long ∧ p.entry_price ∈ buyPrices data slippage) := by
  intro l
  induction l with
  | nil => exact fun st _ h1 h2 => ⟨h1, h2⟩
  | cons i rest ih =>
    intro st hl h1 h2
    simp only [List.foldl_cons]
    obtain ⟨g1, g2⟩ :=
      stepBar_trade_inv gen hdir commission slippage data st i (hl i (by simp)) h1 h2
    exact ih _ (fun j hj => hl j (by simp [hj])) g1 g2

theorem runLoop_trade_inv (strat : Strategy)
    (hdir : ∀ s, (strat.generate_signals s).direction = .long)
    (data : List Bar) (initial_capital commission slippage : ℚ) :
    (∀ t ∈ (runLoop strat data initial_capital commission slippage).trades,
        tradeOKb data slippage t = true) ∧
      (∀ p, (runLoop strat data initial_capital commission slippage).position = some p →
        p.direction = .long ∧ p.entry_price ∈ buyPrices data slippage) := by
  unfold runLoop
  apply foldl_stepBar_trade_inv strat.generate_signals hdir commission slippage data
  · intro i hi
    rw [List.mem_range'_1] at hi
    omega
  · intro t ht
    simp [initState] at ht
  · intro p hp
    simp [initState] at hp

theorem closeFinal_trade_inv (data : List Bar) (commission slippage : ℚ) (st : RunState)
    (hne : data ≠ [])
    (h1 : ∀ t ∈ st.trades, tradeOKb data slippage t = true)
    (h2 : ∀ p, st.position = some p →
      p.direction = .long ∧ p.entry_price ∈ buyPrices data slippage) :
    ∀ t ∈ (closeFinal data commission slippage st).trades, tradeOKb data slippage t = true := by
  unfold closeFinal
  cases hp : st.position with
  | none => exact h1
  | some p =>
    intro t ht
    simp only [List.mem_append, List.mem_singleton] at ht
    rcases ht with ht | rfl
    · exact h1 t ht
    · obtain ⟨hd, hb⟩ := h2 p hp
      unfold tradeOKb
      simp only [Bool.and_eq_true, decide_eq_true_eq]
      exact ⟨⟨hd, hb⟩, List.mem_map.mpr ⟨data.getLastD default, getLastD_mem default hne, rfl⟩⟩

/-- Every trade of a successful run is long, opened at a bar's buy price and
closed at a bar's sell price, provided the strategy only emits long
signals. -/
theorem run_trades_ok (strat : Strategy)
    (hdir : ∀ s, (strat.generate_signals s).direction = .long)
    (data : List Bar) (initial_capital commission slippage : ℚ) :
    Option.all (fun r => r.trades.all (tradeOKb data slippage))
      (run_backtest strat data initial_capital commission slippage) = true := by
  unfold run_backtest
  dsimp only
  split
  next hcond =>
    simp only [Option.all]
    rw [List.all_eq_true]
    intro t ht
    have hn : data ≠ [] := by
      have hc := (run_backtest_cond strat data initial_capital commission slippage).mp hcond
      intro hnil
      rw [hnil] at hc
      simp at hc
      omega
    obtain ⟨g1, g2⟩ := runLoop_trade_inv strat hdir data initial_capital commission slippage
    exact closeFinal_trade_inv data commission slippage _ hn g1 g2 t ht
  next => rfl

/-! Cash accounting: the running cash plus the value invested in the open
position equals the initial capital plus the net (PnL minus commissions) of
all closed trades. -/

/-- The two commission charges of a round trip:
`size·entry_price·rate + size·exit_price·rate` (the entry charge is
`position_value·rate` with `position_value = size·entry_price`). -/
def tradeFees (commission : ℚ) (t : Trade) : ℚ :=
  t.size * t.entry_price * commission + t.size * t.exit_price * commission

/-- Net cash effect of a list of trades. -/
def netSum (commission : ℚ) (trades : List Trade) : ℚ :=
  (trades.map (fun t => t.pnl - tradeFees commission t)).sum

theorem netSum_append (commission : ℚ) (l : List Trade) (t : Trade) :
    netSum commission (l ++ [t]) = netSum commission l + (t.pnl - tradeFees commission t) := by
  simp [netSum]

/-- Accounting invariant of the loop state. -/
def AcctInv (initial_capital commission : ℚ) (st : RunState) : Prop :=
  match st.position with
  | some p => st.position_size = p.size ∧ p.direction = .long ∧
      st.cash + p.size * p.entry_price * (1 + commission)
        = initial_capital + netSum commission st.trades
  | none => st.position_size = 0 ∧
      st.cash = initial_capital + netSum commission st.trades

theorem stepBar_acct (gen : List Bar → Signal)
    (hdir : ∀ s, (gen s).direction = .long)
    (initial_capital commission slippage : ℚ) (data : List Bar)
    (hbuy : ∀ b ∈ data, b.close * (1 + slippage) ≠ 0)
    (st : RunState) (i : ℕ) (hi : i < data.length)
    (hinv : AcctInv initial_capital commission st) :
    AcctInv initial_capital commission (stepBar gen commission slippage data st i) := by
  unfold stepBar
  unfold AcctInv at hinv ⊢
  cases hp : st.position with
  | none =>
    simp only [hp] at hinv
    by_cases he : (gen (data.take (i + 1))).entry = true
    · simp only [he, if_true]
      refine ⟨trivial, hdir _, ?_⟩
      have hb : (data.getD i default).close * (1 + slippage) ≠ 0 :=
        hbuy _ (getD_mem default hi)
      rw [div_mul_cancel₀ _ hb]
      linear_combination hinv.2
    · rw [Bool.not_eq_true] at he
      simp only [he, Bool.false_eq_true, if_false, hp]
      exact hinv
  | some p =>
    simp only [hp] at hinv
    by_cases he : (gen (data.take (i + 1))).exit = true
    · simp only [he, if_true]
      refine ⟨trivial, ?_⟩
      rw [netSum_append]
      have hpnl : Trade.pnl
          ⟨p.entry_time, i, p.entry_price,
            (data.getD i default).close * (1 - slippage), p.direction, p.size⟩
          = ((data.getD i default).close * (1 - slippage) - p.entry_price) * p.size := by
        unfold Trade.pnl
        rw [hinv.2.1]
      rw [hpnl]
      unfold tradeFees
      dsimp only
      rw [hinv.1]
      linear_combination hinv.2.2
    · rw [Bool.not_eq_true] at he
      simp only [he, Bool.false_eq_true, if_false, hp]
      exact hinv

theorem foldl_stepBar_acct (gen : List Bar → Signal)
    (hdir : ∀ s, (gen s).direction = .long)
    (initial_capital commission slippage : ℚ) (data : List Bar)
    (hbuy : ∀ b ∈ data, b.close * (1 + slippage) ≠ 0) :
    ∀ (l : List ℕ) (st : RunState), (∀ i ∈ l, i < data.length) →
      AcctInv initial_capital commission st →
      AcctInv initial_capital commission (l.foldl (stepBar gen commission slippage data) st) := by
  intro l
  induction l with
  | nil => exact fun st _ h => h
  | cons i rest ih =>
    intro st hl h
    simp only [List.foldl_cons]
    exact ih _ (fun j hj => hl j (by simp [hj]))
      (stepBar_acct gen hdir initial_capital commission slippage data hbuy st i
        (hl i (by simp)) h)

theorem runLoop_acct (strat : Strategy)
    (hdir : ∀ s, (strat.generate_signals s).direction = .long)
    (data : List Bar) (initial_capital commission slippage : ℚ)
    (hbuy : ∀ b ∈ data, b.close * (1 + slippage) ≠ 0) :
    AcctInv initial_capital commission (runLoop strat data initial_capital commission slippage) := by
  unfold runLoop
  apply foldl_stepBar_acct strat.generate_signals hdir initial_capital commission slippage data hbuy
  · intro i hi
    rw [List.mem_range'_1] at hi
    omega
  · unfold AcctInv initState
    exact ⟨rfl, by simp [netSum]⟩

theorem closeFinal_acct (data : List Bar) (initial_capital commission slippage : ℚ)
    (st : RunState) (hinv : AcctInv initial_capital commission st) :
    (closeFinal data commission slippage st).cash
      = initial_capital + netSum commission (closeFinal data commission slippage st).trades := by
  unfold closeFinal
  unfold AcctInv at hinv
  cases hp : st.position with
  | none =>
    simp only [hp] at hinv
    exact hinv.2
  | some p =>
    simp only [hp] at hinv
    dsimp only
    rw [netSum_append]
    have hpnl : Trade.pnl
        ⟨p.entry_time, data.length - 1, p.entry_price,
          (data.getLastD default).close * (1 - slippage), p.direction, p.size⟩
        = ((data.getLastD default).close * (1 - slippage) - p.entry_price) * p.size := by
      unfold Trade.pnl
      rw [hinv.2.1]
    rw [hpnl]
    unfold tradeFees
    dsimp only
    rw [hinv.1]
    linear_combination hinv.2.2

/-! The last equity point equals the final cash. -/

theorem stepBar_last_eq_cash (gen : List Bar → Signal) (commission slippage : ℚ)
    (data : List Bar) (st : RunState) (i : ℕ)
    (h : st.position = none → st.equity.getLastD 0 = st.cash) :
    (stepBar gen commission slippage data st i).position = none →
      (stepBar gen commission slippage data st i).equity.getLastD 0
        = (stepBar gen commission slippage data st i).cash := by
  unfold stepBar
  cases hp : st.position with
  | none =>
    by_cases he : (gen (data.take (i + 1))).entry = true
    · simp only [he, if_true]
      intro hq
      simp at hq
    · rw [Bool.not_eq_true] at he
      simp only [he, Bool.false_eq_true, if_false, hp]
      intro _
      simp [List.getLastD_concat]
  | some p =>
    by_cases he : (gen (data.take (i + 1))).exit = true
    · simp only [he, if_true]
      intro _
      simp [List.getLastD_concat]
    · rw [Bool.not_eq_true] at he
      simp only [he, Bool.false_eq_true, if_false, hp]
      intro hq
      simp at hq

theorem foldl_stepBar_last_eq_cash (gen : List Bar → Signal) (commission slippage : ℚ)
    (data : List Bar) :
    ∀ (l : List ℕ) (st : RunState),
      (st.position = none → st.equity.getLastD 0 = st.cash) →
      ((l.foldl (stepBar gen commission slippage data) st).position = none →
        (l.foldl (stepBar gen commission slippage data) st).equity.getLastD 0
          = (l.foldl (stepBar gen commission slippage data) st).cash) := by
  intro l
  induction l with
  | nil => exact fun st h => h
  | cons i rest ih =>
    intro st h
    simp only [List.foldl_cons]
    exact ih _ (stepBar_last_eq_cash gen commission slippage data st i h)

theorem runLoop_last_eq_cash (strat : Strategy) (data : List Bar)
    (initial_capital commission slippage : ℚ) :
    (runLoop strat data initial_capital commission slippage).position = none →
      (runLoop strat data initial_capital commission slippage).equity.getLastD 0
        = (runLoop strat data initial_capital commission slippage).cash := by
  unfold runLoop
  apply foldl_stepBar_last_eq_cash
  intro _
  simp [initState]

/-- After the forced close, `final_capital = equity[-1]` is exactly the
final cash. -/
theorem closeFinal_last_eq_cash (data : List Bar) (commission slippage : ℚ) (st : RunState)
    (h : st.position = none → st.equity.getLastD 0 = st.cash) :
    (closeFinal data commission slippage st).equity.getLastD 0
      = (closeFinal data commission slippage st).cash := by
  unfold closeFinal
  cases hp : st.position with
  | none => exact h hp
  | some p => simp [List.getLastD_concat]

/-! Remaining helper lemmas for the claims. -/

theorem run_backtest_map_initial (strat : Strategy) (data : List Bar)
    (initial_capital commission slippage : ℚ)
    (h1 : 1 ≤ strat.lookback) (h2 : strat.lookback ≤ data.length) :
    (run_backtest strat data initial_capital commission slippage).map
      (fun r => r.initial_capital) = some initial_capital := by
  rw [run_backtest_eq_some strat data initial_capital commission slippage h1 h2]
  rfl

theorem run_backtest_none_of_short (strat : Strategy) (data : List Bar)
    (initial_capital commission slippage : ℚ)
    (h1 : 1 ≤ strat.lookback) (h2 : data.length < strat.lookback) :
    run_backtest strat data initial_capital commission slippage = none := by
  cases hr : run_backtest strat data initial_capital commission slippage with
  | none => rfl
  | some r =>
    have hs := (run_backtest_isSome_iff strat data initial_capital commission slippage).mp
      (by rw [hr]; rfl)
    omega

theorem sum_map_sub (f g : Trade → ℚ) (l : List Trade) :
    (l.map (fun t => f t - g t)).sum = (l.map f).sum - (l.map g).sum := by
  induction l with
  | nil => simp
  | cons t rest ih =>
    simp only [List.map_cons, List.sum_cons, ih]
    ring

theorem list_sq_sum_eq_zero (m : ℚ) :
    ∀ l : List ℚ, (l.map (fun x => (x - m) ^ 2)).sum = 0 → ∀ x ∈ l, x = m := by
  intro l
  induction l with
  | nil => intro _ x hx; simp at hx
  | cons a as ih =>
    intro h x hx
    simp only [List.map_cons, List.sum_cons] at h
    have h2 : 0 ≤ (as.map (fun x => (x - m) ^ 2)).sum := by
      apply List.sum_nonneg
      intro y hy
      simp only [List.mem_map] at hy
      obtain ⟨z, -, rfl⟩ := hy
      exact sq_nonneg _
    have h1 : 0 ≤ (a - m) ^ 2 := sq_nonneg _
    have ha : (a - m) ^ 2 = 0 := by linarith
    have hs : (as.map (fun x => (x - m) ^ 2)).sum = 0 := by linarith
    rcases List.mem_cons.mp hx with rfl | hx2
    · have := pow_eq_zero_iff (two_ne_zero).symm.symm |>.mp ha
      linarith
    · exact ih hs x hx2

theorem windowVar_zero_all_eq (p : ℕ) (xs : List ℚ) (hp : 2 ≤ p)
    (hv : windowVar p xs = 0) :
    ∀ x ∈ lastWindow p xs, x = windowMean p xs := by
  unfold windowVar at hv
  dsimp only at hv
  have hp1 : ((p : ℚ) - 1) ≠ 0 := by
    have h2 : (2 : ℚ) ≤ (p : ℚ) := by exact_mod_cast hp
    linarith
  rw [div_eq_zero_iff] at hv
  rcases hv with hv | hv
  · intro x hx
    exact list_sq_sum_eq_zero _ _ hv x hx
  · exact absurd hv hp1

theorem getLastD_drop (xs : List ℚ) : ∀ k : ℕ, k < xs.length →
    (xs.drop k).getLastD 0 = xs.getLastD 0 := by
  induction xs with
  | nil => intro k h; simp at h
  | cons a as ih =>
    intro k h
    cases k with
    | zero => rfl
    | succ k2 =>
      simp only [List.drop_succ_cons]
      rw [ih k2 (by simpa using h)]
      cases as with
      | nil => simp at h
      | cons b bs => rfl

/-- Zero variance over a filled window forces the window's last close to
equal its mean, so the z-score is `0/0` (NaN): MeanReversion emits the empty
signal. -/
theorem mr_zero_var_empty (p : ℕ) (thr : ℚ) (data : List Bar) (hp : 2 ≤ p)
    (hv : windowVar p (data.map Bar.close) = 0) :
    MeanReversion.generate_signals p thr data = {} := by
  unfold MeanReversion.generate_signals
  dsimp only
  split
  · rfl
  next hg =>
    have hlen : p ≤ (data.map Bar.close).length := by
      simp only [List.length_map]
      omega
    have hwne : lastWindow p (data.map Bar.close) ≠ [] := by
      unfold lastWindow
      apply List.ne_nil_of_length_pos
      rw [List.length_drop]
      omega
    have hx := windowVar_zero_all_eq p (data.map Bar.close) hp hv
    have heq := hx _ (getLastD_mem 0 hwne)
    have hd : (data.map Bar.close).getLastD 0 = windowMean p (data.map Bar.close) := by
      have hdl := getLastD_drop (data.map Bar.close)
        ((data.map Bar.close).length - p) (by omega)
      rw [← hdl]
      exact heq
    have hguard : ¬((data.map Bar.close).length < p ∨ p < 2) := by
      push_neg
      omega
    have hc1 : zscoreLtNeg p thr (data.map Bar.close) = false := by
      unfold zscoreLtNeg
      rw [if_neg hguard]
      dsimp only
      rw [if_pos hv]
      rw [hd]
      simp
    have hc2 : zscoreGeZero p (data.map Bar.close) = false := by
      unfold zscoreGeZero
      rw [if_neg hguard]
      dsimp only
      rw [if_pos hv]
      rw [hd]
      simp
    rw [hc1, hc2]
    simp

/-- A `0/0` RSI quotient (both rolling means zero — e.g. a perfectly flat
window) makes the RSI NaN: every comparison is false and the signal is
empty. -/
theorem rsi_flat_empty (period : ℕ) (ob os : ℚ) (data : List Bar)
    (hg : rollingMeanLast period (gains (data.map Bar.close)) = .fin 0)
    (hl : rollingMeanLast period (losses (data.map Bar.close)) = .fin 0) :
    RSIreversal.generate_signals period ob os data = {} := by
  unfold RSIreversal.generate_signals
  dsimp only
  split
  · rfl
  · have hr : rsiLast period (data.map Bar.close) = PF.nan := by
      unfold rsiLast
      rw [hg, hl]
      rfl
    rw [hr]
    simp [PF.gt, PF.lt]

/-- Pandas `pct_change` of a constant curve: all-zero returns (or none at
all when the constant is 0, where `0/0` is NaN and dropped). -/
theorem filterMap_const_pair (c : ℚ) : ∀ k : ℕ,
    (List.replicate k ((c, c) : ℚ × ℚ)).filterMap
        (fun p => if p.1 = 0 ∧ p.2 = 0 then none else some ((p.2 - p.1) / p.1))
      = if c = 0 then [] else List.replicate k 0 := by
  intro k
  induction k with
  | zero => split <;> rfl
  | succ k2 ih =>
    rw [List.replicate_succ, List.filterMap_cons]
    by_cases hc : c = 0
    · simp only [hc, if_pos (And.intro rfl rfl)]
      simpa [hc] using ih
    · have : ¬(c = 0 ∧ c = 0) := fun h => hc h.1
      simp only [if_neg this]
      rw [if_neg hc] at ih
      rw [ih, if_neg hc, List.replicate_succ]
      simp

theorem calculate_returns_replicate (m : ℕ) (c : ℚ) :
    calculate_returns (List.replicate m c)
      = if c = 0 then [] else List.replicate (m - 1) 0 := by
  cases m with
  | zero => simp [calculate_returns]
  | succ k =>
    unfold calculate_returns
    have htail : (List.replicate (k + 1) c).tail = List.replicate k c := by
      simp [List.replicate_succ]
    rw [htail]
    have hzip : (List.replicate (k + 1) c).zip (List.replicate k c)
        = List.replicate k ((c, c) : ℚ × ℚ) := by
      rw [List.zip_replicate]
      congr 1
      omega
    rw [hzip, filterMap_const_pair]
    simp

theorem seriesVar_replicate_zero (n : ℕ) : seriesVar (List.replicate n (0 : ℚ)) = 0 := by
  unfold seriesVar seriesMean
  simp [List.sum_replicate, List.map_replicate]

theorem filter_neg_replicate_zero (n : ℕ) :
    (List.replicate n (0 : ℚ)).filter (fun r => decide (r < 0)) = [] := by
  induction n with
  | zero => rfl
  | succ k ih =>
    rw [List.replicate_succ, List.filter_cons]
    simpa using ih

theorem seriesMean_replicate_zero (n : ℕ) : seriesMean (List.replicate n (0 : ℚ)) = 0 := by
  unfold seriesMean
  simp [List.sum_replicate]

/-! Concrete bars and strategies used by witnesses and counterexamples. -/

/-- A bar whose open/high/low/close are all the same price. -/
def flatBar (c : ℚ) : Bar := ⟨c, c, c⟩

/-- Fifteen flat bars: one more than `rsi_reversal`'s lookback of 14. -/
def flatBars15 : List Bar := List.replicate 15 (flatBar 100)

/-- The registered `rsi_reversal` instance at its documented defaults. -/
def rsiDefault : Strategy := ⟨RSIreversal.lookback, RSIreversal.generate_signals 14 70 30⟩

/-- Bars with constant high 10 and low 1; closes vary. -/
def brkBar (c : ℚ) : Bar := ⟨c, 10, 1⟩

/-- Twenty bars closing at 5 then one closing at 11: the close sits above
the 20-bar trailing high. -/
def breakoutData21 : List Bar := List.replicate 20 (brkBar 5) ++ [brkBar 11]

/-- One more bar closing at 11: the close still sits above the (unchanged)
trailing high. -/
def breakoutData22 : List Bar := breakoutData21 ++ [brkBar 11]

/-- Close 100, fourteen 50s, then 51: over the last 14-bar diff window there
are no losses and one gain, so `rs = gain/loss = +inf` (RSI 100) while the
previous window's RSI is 0. -/
def rsiInfData : List Bar := [flatBar 100] ++ List.replicate 14 (flatBar 50) ++ [flatBar 51]

/-- The spec's scenario strategy: one entry at bar 10, one exit at
bar 20. -/
def scenarioGen : List Bar → Signal := fun s =>
  if s.length = 11 then { entry := true }
  else if s.length = 21 then { exit := true }
  else {}

def scenarioStrategy : Strategy := ⟨1, scenarioGen⟩

/-- Twenty-one bars closing at 100, except 110 at bar 20. -/
def scenarioData : List Bar :=
  List.replicate 10 (flatBar 100) ++ [flatBar 100]
    ++ List.replicate 9 (flatBar 100) ++ [flatBar 110]

/-- A strategy that always asks to enter: it leaves a position open at the
end of the data. -/
def alwaysEnterGen : List Bar → Signal := fun _ => { entry := true }

def alwaysEnter : Strategy := ⟨1, alwaysEnterGen⟩

/-- Three bars for the forced-close runs. -/
def shortRunData : List Bar := [flatBar 1, flatBar 2, flatBar 4]

/-! The claims. -/

/-- Claim C1 (corrected).  For every run with `1 ≤ lookback ≤ len(bars)`,
the equity curve has `len(bars) - lookback + 1` points, one more than the
claimed `len(bars) - lookback`: the equity list is seeded with
`initial_capital` before the loop (`backtest.py` line 99) and gains one
point per simulated bar, and its index `data.index[lookback-1:]` starts one
bar before the first simulated one. -/
theorem c1_equity_curve_length (strat : Strategy) (data : List Bar)
    (initial_capital commission slippage : ℚ)
    (h1 : 1 ≤ strat.lookback) (h2 : strat.lookback ≤ data.length) :
    (run_backtest strat data initial_capital commission slippage).map
      (fun r => r.equity_curve.length) = some (data.length - strat.lookback + 1) :=
  run_backtest_equity_len strat data initial_capital commission slippage h1 h2

/-- Witness for C1's theorem: the default `rsi_reversal` run on fifteen
bars. -/
theorem c1_witness :
    (run_backtest rsiDefault flatBars15 10000 (1/1000) (1/2000)).map
      (fun r => r.equity_curve.length)
      = some (flatBars15.length - rsiDefault.lookback + 1) :=
  c1_equity_curve_length rsiDefault flatBars15 10000 (1/1000) (1/2000)
    (by decide) (by decide)

/-- Counterexample to C1 as stated: the `rsi_reversal` run on 15 bars
(lookback 14) completes with an equity curve of 2 points, not
`15 - 14 = 1`. -/
theorem c1_counterexample :
    (run_backtest rsiDefault flatBars15 10000 (1/1000) (1/2000)).map
        (fun r => r.equity_curve.length) = some 2
      ∧ flatBars15.length - rsiDefault.lookback = 1
      ∧ (run_backtest rsiDefault flatBars15 10000 (1/1000) (1/2000)).map
          (fun r => r.equity_curve.length)
          ≠ some (flatBars15.length - rsiDefault.lookback) := by
  have h := run_backtest_equity_len rsiDefault flatBars15 10000 (1/1000) (1/2000)
    (by decide) (by decide)
  have hl : flatBars15.length - rsiDefault.lookback + 1 = 2 := by decide
  have hl2 : flatBars15.length - rsiDefault.lookback = 1 := by decide
  refine ⟨by rw [h, hl], hl2, ?_⟩
  rw [h, hl, hl2]
  decide

/-- Claim C2 (corrected).  Each non-Breakout variant triggers only on a
crossing of its compared series between the prior and current bar, so the
same signal (entry or exit) can never fire on two consecutive bar histories
`data` and `data ++ [b]` while a condition persists.  Momentum's ROC period
is written `k + 1`: with the degenerate period 0 (Python's `iloc[-0]` is the
first element) its two ROC values compare different pairs of bars and the
claim would fail there too.  Breakout is the exception — see the
counterexample. -/
theorem c2_no_refire_except_breakout :
    (∀ (fast slow : ℕ) (data : List Bar) (b : Bar),
        ((SMAcrossover.generate_signals fast slow data).entry &&
          (SMAcrossover.generate_signals fast slow (data ++ [b])).entry) = false ∧
        ((SMAcrossover.generate_signals fast slow data).exit &&
          (SMAcrossover.generate_signals fast slow (data ++ [b])).exit) = false) ∧
    (∀ (fast slow : ℕ) (data : List Bar) (b : Bar),
        ((EMAcrossover.generate_signals fast slow data).entry &&
          (EMAcrossover.generate_signals fast slow (data ++ [b])).entry) = false ∧
        ((EMAcrossover.generate_signals fast slow data).exit &&
          (EMAcrossover.generate_signals fast slow (data ++ [b])).exit) = false) ∧
    (∀ (period : ℕ) (ob os : ℚ) (data : List Bar) (b : Bar),
        ((RSIreversal.generate_signals period ob os data).entry &&
          (RSIreversal.generate_signals period ob os (data ++ [b])).entry) = false ∧
        ((RSIreversal.generate_signals period ob os data).exit &&
          (RSIreversal.generate_signals period ob os (data ++ [b])).exit) = false) ∧
    (∀ (fast slow sp : ℕ) (data : List Bar) (b : Bar),
        ((MACD.generate_signals fast slow sp data).entry &&
          (MACD.generate_signals fast slow sp (data ++ [b])).entry) = false ∧
        ((MACD.generate_signals fast slow sp data).exit &&
          (MACD.generate_signals fast slow sp (data ++ [b])).exit) = false) ∧
    (∀ (p : ℕ) (k : ℚ) (data : List Bar) (b : Bar),
        ((BollingerBands.generate_signals p k data).entry &&
          (BollingerBands.generate_signals p k (data ++ [b])).entry) = false ∧
        ((BollingerBands.generate_signals p k data).exit &&
          (BollingerBands.generate_signals p k (data ++ [b])).exit) = false) ∧
    (∀ (p : ℕ) (thr : ℚ) (data : List Bar) (b : Bar),
        ((MeanReversion.generate_signals p thr data).entry &&
          (MeanReversion.generate_signals p thr (data ++ [b])).entry) = false ∧
        ((MeanReversion.generate_signals p thr data).exit &&
          (MeanReversion.generate_signals p thr (data ++ [b])).exit) = false) ∧
    (∀ (k2 : ℕ) (thr : ℚ) (data : List Bar) (b : Bar),
        ((Momentum.generate_signals (k2 + 1) thr data).entry &&
          (Momentum.generate_signals (k2 + 1) thr (data ++ [b])).entry) = false ∧
        ((Momentum.generate_signals (k2 + 1) thr data).exit &&
          (Momentum.generate_signals (k2 + 1) thr (data ++ [b])).exit) = false) :=
  ⟨fun fast slow data b => ⟨sma_no_refire_entry fast slow data b, sma_no_refire_exit fast slow data b⟩,
    fun fast slow data b => ⟨ema_no_refire_entry fast slow data b, ema_no_refire_exit fast slow data b⟩,
    fun period ob os data b => ⟨rsi_no_refire_entry period ob os data b, rsi_no_refire_exit period ob os data b⟩,
    fun fast slow sp data b => ⟨macd_no_refire_entry fast slow sp data b, macd_no_refire_exit fast slow sp data b⟩,
    fun p k data b => ⟨boll_no_refire_entry p k data b, boll_no_refire_exit p k data b⟩,
    fun p thr data b => ⟨mr_no_refire_entry p thr data b, mr_no_refire_exit p thr data b⟩,
    fun k2 thr data b => ⟨momentum_no_refire_entry k2 thr data b, momentum_no_refire_exit k2 thr data b⟩⟩

/-- Counterexample to C2 as stated: `Breakout` compares the close against a
static resistance level, so the same persisting condition (close 11 above
the unchanged trailing high 10) fires the entry signal on two consecutive
bars. -/
theorem c2_breakout_refires_counterexample :
    Breakout.generate_signals 20 0 breakoutData21
        = { entry := true, exit := false, direction := .long }
      ∧ Breakout.generate_signals 20 0 breakoutData22
        = { entry := true, exit := false, direction := .long }
      ∧ breakoutData22 = breakoutData21 ++ [brkBar 11] := by
  refine ⟨?_, ?_, rfl⟩ <;>
    norm_num [Breakout.generate_signals, breakoutData21, breakoutData22, brkBar, lastWindow,
      List.replicate, max_def, min_def, List.max?, List.min?]

/-- Claim C3 (corrected).  `run_backtest` performs no input validation at
all: any capital/commission/slippage values (including non-positive capital
and negative costs) run to completion whenever `1 ≤ lookback ≤ len(bars)`;
the only fail-fast error is `get_strategy`'s `ValueError` on an unknown
name; and with fewer bars than the lookback the failure is the equity-curve
construction after the loop (a pandas length-mismatch `ValueError`), not a
fail-fast `InsufficientDataError` — no such exception class exists in the
code. -/
theorem c3_error_handling_amended :
    (∀ (strat : Strategy) (data : List Bar) (initial_capital commission slippage : ℚ),
        1 ≤ strat.lookback → strat.lookback ≤ data.length →
        (run_backtest strat data initial_capital commission slippage).isSome = true) ∧
      get_strategy "no_such_strategy" = none ∧
      (∀ (strat : Strategy) (data : List Bar) (initial_capital commission slippage : ℚ),
        1 ≤ strat.lookback → data.length < strat.lookback →
        run_backtest strat data initial_capital commission slippage = none) := by
  refine ⟨?_, ?_, ?_⟩
  · intro strat data cap comm slip h1 h2
    exact (run_backtest_isSome_iff strat data cap comm slip).mpr ⟨h1, h2⟩
  · rfl
  · intro strat data cap comm slip h1 h2
    exact run_backtest_none_of_short strat data cap comm slip h1 h2

/-- Counterexample to C3 as stated: a run with capital −5 and negative
commission and slippage completes normally and returns a result — no
`ConfigurationError` is raised before (or during) simulation. -/
theorem c3_invalid_config_runs_counterexample :
    (run_backtest rsiDefault flatBars15 (-5) (-1/100) (-1/2000)).isSome = true
      ∧ (run_backtest rsiDefault flatBars15 (-5) (-1/100) (-1/2000)).map
          (fun r => r.initial_capital) = some (-5) := by
  constructor
  · exact (run_backtest_isSome_iff _ _ _ _ _).mpr ⟨by decide, by decide⟩
  · exact run_backtest_map_initial _ _ _ _ _ (by decide) (by decide)

/-- Claim C4 (confirmed).  `final_capital` is `equity[-1]` of the same list
the equity curve is built from (`backtest.py` lines 176, 185), including
after the forced-close overwrite `equity[-1] = cash`; the curve is never
empty, and the last point always equals the final cash. -/
theorem c4_final_capital_eq_last_equity (strat : Strategy) (data : List Bar)
    (initial_capital commission slippage : ℚ) :
    Option.all (fun r => decide (r.final_capital = r.equity_curve.getLastD 0
        ∧ r.equity_curve ≠ []
        ∧ r.final_capital = (closeFinal data commission slippage
            (runLoop strat data initial_capital commission slippage)).cash))
      (run_backtest strat data initial_capital commission slippage) = true := by
  unfold run_backtest
  dsimp only
  split
  next hcond =>
    simp only [Option.all]
    apply decide_eq_true
    refine ⟨trivial, ?_, ?_⟩
    · exact closeFinal_equity_ne_nil _ _ _ _ (runLoop_equity_ne_nil _ _ _ _ _)
    · exact closeFinal_last_eq_cash _ _ _ _ (runLoop_last_eq_cash _ _ _ _ _)
  next => rfl

/-- The run of the spec's cost-model scenario: capital 10000, commission
0.001, slippage 0.0005, one entry at close 100 (bar 10) and one exit at
close 110 (bar 20). -/
def c5run : Option BacktestResult :=
  run_backtest scenarioStrategy scenarioData 10000 (1/1000) (5/10000)

/-- The single trade that scenario produces: buy fill 100.05, sell fill
109.945, size `9500/100.05 = 190000/2001`. -/
def c5trade : Trade := ⟨10, 20, 2001/20, 21989/200, .long, 190000/2001⟩

/-- Claim C5 (corrected).  The scenario's engine arithmetic, with the two
misquoted figures fixed: size `9500/100.05 ≈ 94.95` (not 94.92) and exit
value `≈ 10439.6` (not 10436.8).  Confirmed figures: position value 9500,
buy fill 100.05, entry commission 9.5, sell fill 109.945, exit commission
`≈ 10.44`, `pnl = (109.945 − 100.05)·size ≈ 939.5` (exact value 939.56) and
`pnl% ≈ 9.89`, with the long-pnl convention over the slippage-adjusted fill
prices. -/
theorem c5_scenario_amended :
    c5run.map (fun r => r.trades) = some [c5trade]
      ∧ (2001 : ℚ)/20 = 100 * (1 + 5/10000)
      ∧ (190000 : ℚ)/2001 = 9500 / (2001/20)
      ∧ |(190000 : ℚ)/2001 - 9495/100| ≤ 1/200
      ∧ (9500 : ℚ) * (1/1000) = 19/2
      ∧ c5run.map (fun r => r.final_capital)
          = some (10000 - (9500 + 19/2)
              + (190000/2001 * (21989/200) - 190000/2001 * (21989/200) * (1/1000)))
      ∧ |(190000 : ℚ)/2001 * (21989/200) - 104396/10| ≤ 1/20
      ∧ |(190000 : ℚ)/2001 * (21989/200) * (1/1000) - 1044/100| ≤ 1/200
      ∧ Trade.pnl c5trade = (21989/200 - 2001/20) * (190000/2001)
      ∧ |Trade.pnl c5trade - 9395/10| ≤ 1/10
      ∧ |Trade.pnl_pct c5trade - 989/100| ≤ 1/100 := by
  refine ⟨?_, by norm_num, by norm_num, by rw [abs_le]; norm_num, by norm_num, ?_,
    by rw [abs_le]; norm_num, by rw [abs_le]; norm_num,
    by norm_num [Trade.pnl, c5trade],
    by rw [abs_le]; norm_num [Trade.pnl, c5trade],
    by rw [abs_le]; norm_num [Trade.pnl_pct, c5trade]⟩
  · norm_num [c5run, c5trade, run_backtest, scenarioStrategy, scenarioData, flatBar, runLoop,
      closeFinal, initState, stepBar, scenarioGen, indexTailLen, List.replicate, List.range']
  · norm_num [c5run, run_backtest, scenarioStrategy, scenarioData, flatBar, runLoop,
      closeFinal, initState, stepBar, scenarioGen, indexTailLen, List.replicate, List.range']

/-- Counterexample to C5 as stated: the size is `190000/2001 ≈ 94.9525`,
more than 0.01 away from the claimed `≈ 94.92`, and the exit value
`≈ 10439.56` is more than 1 away from the claimed `≈ 10436.8`. -/
theorem c5_scenario_counterexample :
    c5run.map (fun r => r.trades.map Trade.size) = some [190000/2001]
      ∧ ¬(|(190000 : ℚ)/2001 - 9492/100| ≤ 1/100)
      ∧ ¬(|(190000 : ℚ)/2001 * (21989/200) - 104368/10| ≤ 1) := by
  refine ⟨?_, ?_, ?_⟩
  · norm_num [c5run, run_backtest, scenarioStrategy, scenarioData, flatBar, runLoop,
      closeFinal, initState, stepBar, scenarioGen, indexTailLen, List.replicate, List.range']
  · intro h
    rw [abs_le] at h
    norm_num at h
  · intro h
    rw [abs_le] at h
    norm_num at h

/-- Claim C6 (confirmed).  A position still open after the last bar is
force-closed at the final bar's close under the same slippage and
commission model: the trade log gains exactly one trade (none when flat),
the appended trade's exit is `last_close·(1−slippage)` with commission
`exit_value·rate` credited against cash, a flat end leaves the state
untouched, and the returned result carries exactly that trade log — so the
result never contains an open position and `#Trades` is the loop's round
trips plus at most one forced close. -/
theorem c6_forced_close (strat : Strategy) (data : List Bar)
    (initial_capital commission slippage : ℚ) :
    ((closeFinal data commission slippage
          (runLoop strat data initial_capital commission slippage)).trades.length
        = (runLoop strat data initial_capital commission slippage).trades.length
          + (if (runLoop strat data initial_capital commission slippage).position.isSome
              then 1 else 0))
      ∧ (∀ p, (runLoop strat data initial_capital commission slippage).position = some p →
          (closeFinal data commission slippage
              (runLoop strat data initial_capital commission slippage)).trades
            = (runLoop strat data initial_capital commission slippage).trades
              ++ [⟨p.entry_time, data.length - 1, p.entry_price,
                   (data.getLastD default).close * (1 - slippage), p.direction, p.size⟩]
          ∧ (closeFinal data commission slippage
              (runLoop strat data initial_capital commission slippage)).cash
            = (runLoop strat data initial_capital commission slippage).cash
              + (runLoop strat data initial_capital commission slippage).position_size
                  * ((data.getLastD default).close * (1 - slippage))
              - (runLoop strat data initial_capital commission slippage).position_size
                  * ((data.getLastD default).close * (1 - slippage)) * commission)
      ∧ ((runLoop strat data initial_capital commission slippage).position = none →
          closeFinal data commission slippage
              (runLoop strat data initial_capital commission slippage)
            = runLoop strat data initial_capital commission slippage)
      ∧ Option.all (fun r => decide (r.trades
            = (closeFinal data commission slippage
                (runLoop strat data initial_capital commission slippage)).trades))
          (run_backtest strat data initial_capital commission slippage) = true := by
  refine ⟨?_, ?_, ?_, ?_⟩
  · unfold closeFinal
    cases hp : (runLoop strat data initial_capital commission slippage).position <;>
      simp [hp]
  · intro p hp
    unfold closeFinal
    simp only [hp]
    exact ⟨by trivial, by trivial⟩
  · intro hp
    unfold closeFinal
    simp only [hp]
  · unfold run_backtest
    dsimp only
    split
    · simp only [Option.all]
      exact decide_eq_true (by trivial)
    · rfl

/-- Claim C7 (corrected).  Sharpe is 0 with fewer than 2 returns or zero
variance; Sortino with at least 2 returns and no negative returns is `+inf`
exactly when the mean return is positive, else 0; and a flat equity curve
(constant replicate) yields Sharpe 0 and Sortino 0 — never NaN, never an
exception.  The correction: with a single (necessarily non-negative-free)
return the `len < 2` guard makes Sortino 0 even when the mean is positive,
so the claim's unconditional "no negative returns ⇒ +inf when mean > 0"
fails — see the counterexample. -/
theorem c7_sharpe_sortino_guards :
    (∀ (returns : List ℚ) (rf : ℚ), returns.length < 2 →
        calculate_sharpe_ratio returns rf = .num 0) ∧
      (∀ (returns : List ℚ) (rf : ℚ), seriesVar returns = 0 →
        calculate_sharpe_ratio returns rf = .num 0) ∧
      (∀ (returns : List ℚ) (rf : ℚ), 2 ≤ returns.length →
        returns.filter (fun r => decide (r < 0)) = [] →
        calculate_sortino_ratio returns rf
          = (if 0 < seriesMean returns then .inf else .num 0)) ∧
      (∀ (m : ℕ) (c rf : ℚ),
        calculate_sharpe_ratio (calculate_returns (List.replicate m c)) rf = .num 0 ∧
          calculate_sortino_ratio (calculate_returns (List.replicate m c)) rf = .num 0) := by
  have hsh : ∀ (returns : List ℚ) (rf : ℚ), returns.length < 2 ∨ seriesVar returns = 0 →
      calculate_sharpe_ratio returns rf = .num 0 := by
    intro returns rf h
    unfold calculate_sharpe_ratio
    rw [if_pos h]
  have hso : ∀ (returns : List ℚ) (rf : ℚ), 2 ≤ returns.length →
      returns.filter (fun r => decide (r < 0)) = [] →
      calculate_sortino_ratio returns rf
        = (if 0 < seriesMean returns then .inf else .num 0) := by
    intro returns rf hlen hfil
    unfold calculate_sortino_ratio
    rw [if_neg (by omega)]
    dsimp only
    rw [hfil]
    simp
  have hflat : ∀ (m : ℕ) (c rf : ℚ),
      calculate_sharpe_ratio (calculate_returns (List.replicate m c)) rf = .num 0 ∧
        calculate_sortino_ratio (calculate_returns (List.replicate m c)) rf = .num 0 := by
    intro m c rf
    rw [calculate_returns_replicate]
    by_cases hc : c = 0
    · rw [if_pos hc]
      constructor
      · exact hsh [] rf (Or.inl (by simp))
      · unfold calculate_sortino_ratio
        rw [if_pos (by simp)]
    · rw [if_neg hc]
      constructor
      · exact hsh _ rf (Or.inr (seriesVar_replicate_zero _))
      · by_cases hm : (List.replicate (m - 1) (0 : ℚ)).length < 2
        · unfold calculate_sortino_ratio
          rw [if_pos hm]
        · rw [hso _ rf (by omega) (filter_neg_replicate_zero _)]
          rw [seriesMean_replicate_zero]
          simp
  exact ⟨fun returns rf h => hsh returns rf (Or.inl h),
    fun returns rf h => hsh returns rf (Or.inr h), hso, hflat⟩

/-- Counterexample to C7 as stated: the single positive return `[0.5]` has
no negative returns and positive mean, yet Sortino is 0 (the `len < 2`
guard), not `+inf`. -/
theorem c7_sortino_single_positive_counterexample :
    calculate_sortino_ratio [1/2] (2/100) = .num 0
      ∧ ([(1 : ℚ)/2].filter (fun r => decide (r < 0))) = []
      ∧ 0 < seriesMean [(1 : ℚ)/2]
      ∧ calculate_sortino_ratio [1/2] (2/100) ≠ .inf := by
  have h1 : calculate_sortino_ratio [1/2] (2/100) = .num 0 := by
    unfold calculate_sortino_ratio
    rw [if_pos (by norm_num)]
  refine ⟨h1, ?_, ?_, ?_⟩
  · norm_num [List.filter]
  · norm_num [seriesMean]
  · rw [h1]
    simp

/-- Claim C8 (corrected).  Non-finite intermediates never raise: a
zero-variance (zero-std) window gives MeanReversion a NaN z-score and the
empty signal, a `0/0` RSI quotient gives a NaN RSI and the empty signal, and
every run over at least `lookback` bars completes with a full result.  The
correction: an *infinite* intermediate need not yield an empty Signal — an
infinite `rs = gain/loss` gives the finite RSI 100, which can emit a real
entry signal (see the counterexample) — so only NaN-valued comparisons, not
all non-finite intermediates, resolve to "no signal". -/
theorem c8_nonfinite_amended :
    (∀ (p : ℕ) (thr : ℚ) (data : List Bar), 2 ≤ p →
        windowVar p (data.map Bar.close) = 0 →
        MeanReversion.generate_signals p thr data = {}) ∧
      (∀ (period : ℕ) (ob os : ℚ) (data : List Bar),
        rollingMeanLast period (gains (data.map Bar.close)) = .fin 0 →
        rollingMeanLast period (losses (data.map Bar.close)) = .fin 0 →
        RSIreversal.generate_signals period ob os data = {}) ∧
      (∀ (strat : Strategy) (data : List Bar) (cap comm slip : ℚ),
        1 ≤ strat.lookback → strat.lookback ≤ data.length →
        (run_backtest strat data cap comm slip).isSome = true) :=
  ⟨fun p thr data hp hv => mr_zero_var_empty p thr data hp hv,
    fun period ob os data hg hl => rsi_flat_empty period ob os data hg hl,
    fun strat data cap comm slip h1 h2 =>
      (run_backtest_isSome_iff strat data cap comm slip).mpr ⟨h1, h2⟩⟩

/-- Counterexample to C8 as stated: on `rsiInfData` the RSI intermediate
`rs = gain/loss` is `+inf` (zero loss-mean, positive gain-mean), yet the
strategy emits a non-empty entry Signal rather than resolving to the empty
one. -/
theorem c8_rsi_inf_entry_counterexample :
    (rollingMeanLast 14 (gains (rsiInfData.map Bar.close))).div
        (rollingMeanLast 14 (losses (rsiInfData.map Bar.close))) = PF.pinf
      ∧ RSIreversal.generate_signals 14 70 30 rsiInfData
          = { entry := true, exit := false, direction := .long } := by
  constructor <;>
    norm_num [RSIreversal.generate_signals, rsiInfData, flatBar, rsiLast, rollingMeanLast,
      gains, losses, deltas, lastWindow, List.replicate, PF.div, PF.add, PF.sub, PF.le,
      PF.gt, PF.lt, PF.ge]

/-- Claim C9 (confirmed).  `Trade.pnl` is gross of costs: for every
completed run of a long-only strategy over bars with nonzero buy fills,
`final_capital = initial_capital + Σ pnl − Σ commissions`, the commissions
of a round trip being `size·entry_price·rate + size·exit_price·rate`
(entry commission is `position_value·rate` and the invested
`position_value` equals `size·entry_price` exactly, since
`size = position_value / buy_price`). -/
theorem c9_pnl_identity (strat : Strategy) (data : List Bar)
    (initial_capital commission slippage : ℚ)
    (hdir : ∀ s, (strat.generate_signals s).direction = .long)
    (hbuy : ∀ b ∈ data, b.close * (1 + slippage) ≠ 0)
    (r : BacktestResult)
    (hr : run_backtest strat data initial_capital commission slippage = some r) :
    r.final_capital = initial_capital + (r.trades.map Trade.pnl).sum
      - (r.trades.map (tradeFees commission)).sum := by
  have hs : 1 ≤ strat.lookback ∧ strat.lookback ≤ data.length :=
    (run_backtest_isSome_iff strat data initial_capital commission slippage).mp
      (by rw [hr]; rfl)
  rw [run_backtest_eq_some strat data initial_capital commission slippage hs.1 hs.2,
    Option.some.injEq] at hr
  subst hr
  dsimp only
  have hcash := closeFinal_acct data initial_capital commission slippage _
    (runLoop_acct strat hdir data initial_capital commission slippage hbuy)
  have hlast := closeFinal_last_eq_cash data commission slippage _
    (runLoop_last_eq_cash strat data initial_capital commission slippage)
  rw [hlast, hcash]
  unfold netSum
  rw [sum_map_sub]
  ring

/-- The result record of the C9 witness run: `alwaysEnter` on three bars
with capital 100, commission 1%, no slippage (entry at close 2, forced
close at close 4). -/
def c9res : BacktestResult :=
  { start_date := 0,
    end_date := shortRunData.length - 1,
    initial_capital := 100,
    final_capital := (closeFinal shortRunData (1/100) 0
      (runLoop alwaysEnter shortRunData 100 (1/100) 0)).equity.getLastD 0,
    trades := (closeFinal shortRunData (1/100) 0
      (runLoop alwaysEnter shortRunData 100 (1/100) 0)).trades,
    equity_curve := (closeFinal shortRunData (1/100) 0
      (runLoop alwaysEnter shortRunData 100 (1/100) 0)).equity }

/-- Witness for C9's theorem at a concrete run ending in a forced close. -/
theorem c9_witness :
    c9res.final_capital = 100 + (c9res.trades.map Trade.pnl).sum
      - (c9res.trades.map (tradeFees (1/100))).sum :=
  c9_pnl_identity alwaysEnter shortRunData 100 (1/100) 0
    (fun s => rfl)
    (by
      intro b hb
      simp only [shortRunData, flatBar, List.mem_cons, List.mem_singleton,
        List.not_mem_nil, or_false] at hb
      rcases hb with rfl | rfl | rfl <;> norm_num)
    c9res
    (run_backtest_eq_some alwaysEnter shortRunData 100 (1/100) 0 (by decide) (by decide))

/-- Claim C10 (confirmed).  None of the eight registered strategies ever
emits a Signal with direction `"short"` (every constructed Signal carries
the explicit or default `"long"`), and consequently every Trade of any run
of any of the eight is long, opened at some bar's `close·(1+slippage)` and
closed at some bar's `close·(1−slippage)` (`tradeOKb`). -/
theorem c10_all_trades_long :
    (∀ (fast slow : ℕ) (data : List Bar),
        (SMAcrossover.generate_signals fast slow data).direction = .long) ∧
      (∀ (fast slow : ℕ) (data : List Bar),
        (EMAcrossover.generate_signals fast slow data).direction = .long) ∧
      (∀ (period : ℕ) (ob os : ℚ) (data : List Bar),
        (RSIreversal.generate_signals period ob os data).direction = .long) ∧
      (∀ (fast slow sp : ℕ) (data : List Bar),
        (MACD.generate_signals fast slow sp data).direction = .long) ∧
      (∀ (p : ℕ) (k : ℚ) (data : List Bar),
        (BollingerBands.generate_signals p k data).direction = .long) ∧
      (∀ (lb : ℕ) (thr : ℚ) (data : List Bar),
        (Breakout.generate_signals lb thr data).direction = .long) ∧
      (∀ (p : ℕ) (thr : ℚ) (data : List Bar),
        (MeanReversion.generate_signals p thr data).direction = .long) ∧
      (∀ (period : ℕ) (thr : ℚ) (data : List Bar),
        (Momentum.generate_signals period thr data).direction = .long) ∧
      (∀ (fast slow : ℕ) (data : List Bar) (cap comm slip : ℚ),
        Option.all (fun r => r.trades.all (tradeOKb data slip))
          (run_backtest ⟨SMAcrossover.lookback, SMAcrossover.generate_signals fast slow⟩
            data cap comm slip) = true) ∧
      (∀ (fast slow : ℕ) (data : List Bar) (cap comm slip : ℚ),
        Option.all (fun r => r.trades.all (tradeOKb data slip))
          (run_backtest ⟨EMAcrossover.lookback, EMAcrossover.generate_signals fast slow⟩
            data cap comm slip) = true) ∧
      (∀ (period : ℕ) (ob os : ℚ) (data : List Bar) (cap comm slip : ℚ),
        Option.all (fun r => r.trades.all (tradeOKb data slip))
          (run_backtest ⟨RSIreversal.lookback, RSIreversal.generate_signals period ob os⟩
            data cap comm slip) = true) ∧
      (∀ (fast slow sp : ℕ) (data : List Bar) (cap comm slip : ℚ),
        Option.all (fun r => r.trades.all (tradeOKb data slip))
          (run_backtest ⟨MACD.lookback, MACD.generate_signals fast slow sp⟩
            data cap comm slip) = true) ∧
      (∀ (p : ℕ) (k : ℚ) (data : List Bar) (cap comm slip : ℚ),
        Option.all (fun r => r.trades.all (tradeOKb data slip))
          (run_backtest ⟨BollingerBands.lookback, BollingerBands.generate_signals p k⟩
            data cap comm slip) = true) ∧
      (∀ (lb : ℕ) (thr : ℚ) (data : List Bar) (cap comm slip : ℚ),
        Option.all (fun r => r.trades.all (tradeOKb data slip))
          (run_backtest ⟨Breakout.lookback, Breakout.generate_signals lb thr⟩
            data cap comm slip) = true) ∧
      (∀ (p : ℕ) (thr : ℚ) (data : List Bar) (cap comm slip : ℚ),
        Option.all (fun r => r.trades.all (tradeOKb data slip))
          (run_backtest ⟨MeanReversion.lookback, MeanReversion.generate_signals p thr⟩
            data cap comm slip) = true) ∧
      (∀ (period : ℕ) (thr : ℚ) (data : List Bar) (cap comm slip : ℚ),
        Option.all (fun r => r.trades.all (tradeOKb data slip))
          (run_backtest ⟨Momentum.lookback, Momentum.generate_signals period thr⟩
            data cap comm slip) = true) :=
  ⟨sma_direction_long, ema_direction_long, rsi_direction_long, macd_direction_long,
    boll_direction_long, breakout_direction_long, mr_direction_long, momentum_direction_long,
    fun fast slow data cap comm slip =>
      run_trades_ok _ (fun s => sma_direction_long fast slow s) data cap comm slip,
    fun fast slow data cap comm slip =>
      run_trades_ok _ (fun s => ema_direction_long fast slow s) data cap comm slip,
    fun period ob os data cap comm slip =>
      run_trades_ok _ (fun s => rsi_direction_long period ob os s) data cap comm slip,
    fun fast slow sp data cap comm slip =>
      run_trades_ok _ (fun s => macd_direction_long fast slow sp s) data cap comm slip,
    fun p k data cap comm slip =>
      run_trades_ok _ (fun s => boll_direction_long p k s) data cap comm slip,
    fun lb thr data cap comm slip =>
      run_trades_ok _ (fun s => breakout_direction_long lb thr s) data cap comm slip,
    fun p thr data cap comm slip =>
      run_trades_ok _ (fun s => mr_direction_long p thr s) data cap comm slip,
    fun period thr data cap comm slip =>
      run_trades_ok _ (fun s => momentum_direction_long period thr s) data cap comm slip⟩

end Backtester
